import Mathlib

/-!
oneDNN: SYCL RNN workspace addressing and the gemmstone microkernel provider.

A shallow embedding of

* `src/gpu/generic/sycl/rnn/rnn_utils.hpp` (`calc_offset`, `conf_t`, `workspace_t`,
  `scratch_t`, `calc_global_range`, `get_outer_strides`), and
* `src/gpu/intel/jit/gemm/include/gemmstone/microkernel_provider.hpp`
  (`HWInformation`, `alignmentForLD`, `selectGEMMMicrokernel`),

followed by the properties established about them.

Conventions.  `dim_t` is `int64_t`; values are mathematical integers and every
signed 64-bit operation is checked: a result outside the 64-bit range is undefined
behaviour in the source and `none` here.  A conversion to `int` keeps the low 32 bits
(`toInt32`).  A null `unique_ptr` is `none`; dereferencing it is `none` as well.
-/

namespace dnnl

/-! ## Machine arithmetic -/

/-- Conversion of an integer to `int`: the low 32 bits, read as two's complement. -/
def toInt32 (x : Int) : Int := (x + 2147483648) % 4294967296 - 2147483648

/-- Membership in the range of `int`. -/
def fitsInt32 (x : Int) : Prop := -2147483648 ≤ x ∧ x ≤ 2147483647

/-- Membership in the range of `dim_t` (`int64_t`). -/
def fitsInt64 (x : Int) : Prop := -9223372036854775808 ≤ x ∧ x ≤ 9223372036854775807

instance (x : Int) : Decidable (fitsInt32 x) := by unfold fitsInt32; infer_instance

instance (x : Int) : Decidable (fitsInt64 x) := by unfold fitsInt64; infer_instance

/-- A signed 64-bit result: defined only when it is representable. -/
def chk64 (x : Int) : Option Int := if fitsInt64 x then some x else none

/-- Signed 64-bit addition. -/
def add64 (a b : Int) : Option Int := chk64 (a + b)

/-- Signed 64-bit multiplication. -/
def mul64 (a b : Int) : Option Int := chk64 (a * b)

/-- Conversion of a `dim_t` to `size_t`: reduction modulo `2^64`. -/
def toSize (x : Int) : Nat := (x % 18446744073709551616).toNat

/-! ## `calc_offset` -/

/-- The value of `offset` in `calc_offset<N>(Ds, Is)` after `i` iterations of the loop
`offset = offset * Ds[i] + Is[i + 1]`.  `offset` is an `int`; the right-hand side is
evaluated in `dim_t` and converted back on assignment. -/
def calc_offset_iter (N : Nat) (Ds : Fin N → Int) (Is : Fin (N + 1) → Int) : Nat → Option Int
  | 0 => some (toInt32 (Is 0))
  | i + 1 =>
    if h : i < N then
      (calc_offset_iter N Ds Is i).bind fun offset =>
        (mul64 offset (Ds ⟨i, h⟩)).bind fun p =>
          (add64 p (Is ⟨i + 1, Nat.succ_lt_succ h⟩)).map toInt32
    else calc_offset_iter N Ds Is i

/-- The function `calc_offset<N>(Ds, Is)`: the loop run for `i = 0 .. N-1`. -/
def calc_offset (N : Nat) (Ds : Fin N → Int) (Is : Fin (N + 1) → Int) : Option Int :=
  calc_offset_iter N Ds Is N

/-- The row-major linear index of the first `i + 1` entries of `Is` under the bounds `Ds`,
as a mathematical integer: `(...(Is[0]*Ds[0] + Is[1])*Ds[1] + ...)*Ds[i-1] + Is[i]`. -/
def lin_index (N : Nat) (Ds : Fin N → Int) (Is : Fin (N + 1) → Int) : Nat → Int
  | 0 => Is 0
  | i + 1 =>
    if h : i < N then lin_index N Ds Is i * Ds ⟨i, h⟩ + Is ⟨i + 1, Nat.succ_lt_succ h⟩
    else lin_index N Ds Is i

/-- No signed 64-bit overflow occurs in the first `i` iterations of `calc_offset`: the
product of the current `int` offset with the bound, and that product plus the next
index, are representable in `dim_t`. -/
def no_overflow64 (N : Nat) (Ds : Fin N → Int) (Is : Fin (N + 1) → Int) : Nat → Prop
  | 0 => True
  | i + 1 =>
    no_overflow64 N Ds Is i ∧
      ∀ h : i < N,
        fitsInt64 (toInt32 (lin_index N Ds Is i) * Ds ⟨i, h⟩) ∧
        fitsInt64 (toInt32 (lin_index N Ds Is i) * Ds ⟨i, h⟩ + Is ⟨i + 1, Nat.succ_lt_succ h⟩)

/-- The product `Ds[0] * ... * Ds[i-1]` of the first `i` bounds. -/
def dims_prod (N : Nat) (Ds : Fin N → Int) : Nat → Int
  | 0 => 1
  | i + 1 => if h : i < N then dims_prod N Ds i * Ds ⟨i, h⟩ else dims_prod N Ds i

/-- The index tuple `Is` is in bounds for `Ds`: the leading index is non-negative, every
bound is positive and every further index `Is[i + 1]` lies in `[0, Ds[i])`. -/
def in_bounds (N : Nat) (Ds : Fin N → Int) (Is : Fin (N + 1) → Int) : Prop :=
  0 ≤ Is 0 ∧ ∀ i : Fin N, 0 < Ds i ∧ 0 ≤ Is i.succ ∧ Is i.succ < Ds i

instance (N : Nat) (Ds : Fin N → Int) (Is : Fin (N + 1) → Int) :
    Decidable (in_bounds N Ds Is) := by unfold in_bounds; infer_instance

instance no_overflow64.decidable (N : Nat) (Ds : Fin N → Int) (Is : Fin (N + 1) → Int) :
    (i : Nat) → Decidable (no_overflow64 N Ds Is i)
  | 0 => isTrue trivial
  | i + 1 =>
    have := no_overflow64.decidable N Ds Is i
    by unfold no_overflow64; infer_instance

/-! ## `memory_tracking::names` -/

namespace memory_tracking

/-- Modelled from the spec: the scratchpad keys of `memory_tracking::names`
(`common/memory_tracking.hpp`, not among the sources at hand) that `scratch_t` asks the
grantor for; section 1 lists the scratch-buffer bookkeeping among the external
collaborators. -/
inductive names where
  | key_rnn_gates
  | key_rnn_diff_gates
  | key_rnn_cell
  | key_rnn_diff_states
deriving DecidableEq, Repr

end memory_tracking

/-! ## `rnn_utils::conf_t` -/

namespace rnn_utils

/-- The struct `conf_t`.  `data_type_t` values are kept as their enumeration codes,
`parts_bias` and `local_ranges` as the lists of their entries. -/
structure conf_t where
  n_layer : Int
  n_iter : Int
  n_dir : Int
  n_gates : Int
  n_states : Int
  mb : Int
  slc : Int
  sic : Int
  dhc : Int
  dlc : Int
  gates_ld : Int
  gates_ws_ld : Int
  n_bias : Int
  n_parts_bias : Int
  parts_bias : List Int
  iter_loop : Int
  states_ws_ld : Int
  scratch_diff_states_ld : Int
  is_fwd : Bool
  is_training : Bool
  use_workspace : Bool
  ws_states_cell_size : Int
  ws_gates_cell_size : Int
  ws_gates_size : Int
  ws_states_size : Int
  scratch_cell_size : Int
  ws_per_cell : Int
  scratch_diff_states_size : Int
  ws_bias_size : Int
  ws_gates_offset : Int
  ws_states_offset : Int
  ws_bias_offset : Int
  ws_gates_elsz : Int
  ws_states_elsz : Int
  ws_bias_elsz : Int
  n_iter_scratch_gates : Int
  scratch_gates_size : Int
  scratch_gates_elsz : Int
  scratch_gates_ld : Int
  scratch_diff_gates_size : Int
  scratch_diff_gates_elsz : Int
  scratch_diff_gates_ld : Int
  local_ranges : List Int
  acc_data_type : Nat
  aux_data_type : Nat
  input_data_type : Nat
  output_data_type : Nat
  ws_data_type : Nat
  src_data_type : Nat
  dst_data_type : Nat
  diff_data_type : Nat
  wei_layer_type : Nat
  wei_iter_type : Nat
  bias_data_type : Nat

/-- The type `strides_t`, a `std::array<dim_t, 4>`. -/
abbrev strides_t := Fin 4 → Int

/-- Modelled from the spec: `memory_storage_t` (`common/memory_storage.hpp`, not among the
sources at hand).  Section 6 describes the workspace helpers as offsets into a shared
buffer, so a storage is the buffer it views together with its byte offset, the `size_t`
read by `offset()` and written by `set_offset`. -/
structure mst where
  buffer : Nat
  offset : Nat
deriving DecidableEq, Repr

/-- Modelled from the spec: the call `s.set_offset(o)` of `memory_storage_t`, with `o` a
`size_t` expression. -/
def mst.set_offset (s : mst) (o : Nat) : mst :=
  { s with offset := o % 18446744073709551616 }

/-- Modelled from the spec: the call `s.clone()` of `memory_storage_t`, a copy viewing the
same buffer at the same offset. -/
def mst.clone (s : mst) : Option mst := some s

/-- A `std::unique_ptr<mst>` handed back by an accessor: empty (`return {}`), or the
result of the call `base.clone_ptr_off(off)`, kept as the call itself (its receiver and
its byte-offset argument) since `clone_ptr_off` is defined outside this header. -/
inductive sub_storage where
  | empty : sub_storage
  | clone_ptr_off (base : mst) (off : Int) : sub_storage
deriving DecidableEq, Repr

/-! ## `rnn_utils::workspace_t` -/

/-- The data members of `workspace_t` (`ws_`, `conf_`, the three cloned parts and the two
stride arrays; `grid_comp_` is never assigned and stays null). -/
structure workspace_t where
  ws_ : mst
  conf_ : conf_t
  gates_ : Option mst
  gates_strides_ : strides_t
  states_ : Option mst
  states_strides_ : strides_t
  bias_ : Option mst

/-- The three values `n_b`, `n_tb`, `n_dtb` computed (as `int`) in both branches of the
constructor. -/
def workspace_t.n_b_tb_dtb (conf : conf_t) : Option (Int × Int × Int) :=
  let n_b := toInt32 conf.mb
  (add64 conf.n_iter 1).bind fun t =>
    (mul64 t n_b).bind fun tb =>
      let n_tb := toInt32 tb
      (mul64 conf.n_dir n_tb).map fun dtb => (n_b, n_tb, toInt32 dtb)

/-- The assignment to `gates_strides_` in the `if (gates_)` branch of the constructor. -/
def workspace_t.init_gates_strides (conf : conf_t) : Option strides_t :=
  (workspace_t.n_b_tb_dtb conf).bind fun (n_b, n_tb, n_dtb) =>
    (mul64 n_dtb conf.gates_ws_ld).bind fun s0 =>
      (mul64 n_tb conf.gates_ws_ld).bind fun s1 =>
        (mul64 n_b conf.gates_ws_ld).map fun s2 => ![s0, s1, s2, conf.gates_ws_ld]

/-- The assignment to `states_strides_` in the `if (states_)` branch of the constructor. -/
def workspace_t.init_states_strides (conf : conf_t) : Option strides_t :=
  (workspace_t.n_b_tb_dtb conf).bind fun (n_b, n_tb, n_dtb) =>
    (mul64 n_dtb conf.states_ws_ld).bind fun s0 =>
      (mul64 n_tb conf.states_ws_ld).bind fun s1 =>
        (mul64 n_b conf.states_ws_ld).map fun s2 => ![s0, s1, s2, 1]

/-- The constructor `workspace_t(ws, conf)`.  The member initialisers clone `ws` for each
part whose size is positive and zero both stride arrays; the body then offsets the gates
and the states parts when present and computes their strides, and finally calls
`bias_->set_offset(...)` without a test, which dereferences `bias_`. -/
def workspace_t.ctor (ws : mst) (conf : conf_t) : Option workspace_t :=
  let gates_ := if conf.ws_gates_size > 0 then ws.clone else none
  let states_ := if conf.ws_states_size > 0 then ws.clone else none
  let bias_ := if conf.ws_bias_size > 0 then ws.clone else none
  let gates_part : Option (Option mst × strides_t) :=
    match gates_ with
    | some g =>
      (workspace_t.init_gates_strides conf).map fun st =>
        (some (g.set_offset (g.offset + toSize conf.ws_gates_offset)), st)
    | none => some (none, ![0, 0, 0, 0])
  let states_part : Option (Option mst × strides_t) :=
    match states_ with
    | some s =>
      (workspace_t.init_states_strides conf).map fun st =>
        (some (s.set_offset (s.offset + toSize conf.ws_states_offset)), st)
    | none => some (none, ![0, 0, 0, 0])
  gates_part.bind fun (g, gst) =>
    states_part.bind fun (s, sst) =>
      bias_.map fun b =>
        { ws_ := ws, conf_ := conf, gates_ := g, gates_strides_ := gst, states_ := s,
          states_strides_ := sst,
          bias_ := some (b.set_offset (b.offset + toSize conf.ws_bias_offset)) }

/-- The value of `offset` in `get_offset(strides, dims)` after `i` iterations of
`offset += strides[i] * dims[i]`. -/
def workspace_t.get_offset_iter (strides : strides_t) (dims : Fin 4 → Int) : Nat → Option Int
  | 0 => some 0
  | i + 1 =>
    if h : i < 4 then
      (workspace_t.get_offset_iter strides dims i).bind fun offset =>
        (mul64 (strides ⟨i, h⟩) (dims ⟨i, h⟩)).bind fun p => add64 offset p
    else workspace_t.get_offset_iter strides dims i

/-- The static member `get_offset(strides, dims)`. -/
def workspace_t.get_offset (strides : strides_t) (dims : Fin 4 → Int) : Option Int :=
  workspace_t.get_offset_iter strides dims 4

/-- The member `calc_off_ws_state(i0, i1, i2, i3, i4)`; the `assert(i0 >= 0)` is a
failure when violated. -/
def workspace_t.calc_off_ws_state (w : workspace_t) (i0 i1 i2 i3 i4 : Int) : Option Int :=
  if i0 ≥ 0 then
    (add64 w.conf_.n_iter 1).bind fun t =>
      calc_offset 4 ![w.conf_.n_dir, t, w.conf_.mb, w.conf_.states_ws_ld] ![i0, i1, i2, i3, i4]
  else none

/-- The accessor `states_strides()`. -/
def workspace_t.states_strides (w : workspace_t) : strides_t := w.states_strides_

/-- The accessor `gates_strides()`. -/
def workspace_t.gates_strides (w : workspace_t) : strides_t := w.gates_strides_

/-- The member `states(layer, dir, time)`.  `get_storage` (declared, not defined, in this
header) is a parameter. -/
def workspace_t.states (get_storage : Option mst → mst) (w : workspace_t)
    (layer dir time : Int) : Option sub_storage :=
  match w.states_ with
  | none => some sub_storage.empty
  | some _ =>
    (workspace_t.get_offset w.states_strides ![layer, dir, time, 0]).bind fun o =>
      (mul64 o w.conf_.ws_states_elsz).map fun off_ =>
        sub_storage.clone_ptr_off (get_storage w.states_) off_

/-- The member `states_range(layer_start, layer_end, dir_start, dir_end, time_start,
time_end)`. -/
def workspace_t.states_range (get_storage : Option mst → mst) (w : workspace_t)
    (layer_start _layer_end dir_start _dir_end time_start _time_end : Int) :
    Option sub_storage :=
  (w.calc_off_ws_state layer_start dir_start time_start 0 0).bind fun o =>
    (mul64 o w.conf_.ws_states_elsz).map fun off_start =>
      sub_storage.clone_ptr_off (get_storage w.states_) off_start

/-- The member `gates(layer, dir, time, mb)`. -/
def workspace_t.gates (get_storage : Option mst → mst) (w : workspace_t)
    (layer dir time mb : Int) : Option sub_storage :=
  (workspace_t.get_offset w.gates_strides ![layer, dir, time, mb]).bind fun o =>
    (mul64 o w.conf_.ws_gates_elsz).map fun off =>
      sub_storage.clone_ptr_off (get_storage w.gates_) off

/-! ## `rnn_utils::scratch_t` -/

/-- The data members of `scratch_t`. -/
structure scratch_t where
  conf_ : conf_t
  gates_ : Option mst
  diff_gates_ : Option mst
  cell_ : Option mst
  diff_states_ : Option mst

/-- The member `calc_off_diff_state(i0, i1, i2, i3, i4, i5)`. -/
def scratch_t.calc_off_diff_state (s : scratch_t) (i0 i1 i2 i3 i4 i5 : Int) : Option Int :=
  (add64 s.conf_.n_iter 1).bind fun t =>
    (add64 s.conf_.n_states 1).bind fun n =>
      calc_offset 5 ![s.conf_.n_dir, t, n, s.conf_.mb, s.conf_.scratch_diff_states_ld]
        ![i0, i1, i2, i3, i4, i5]

/-- The member `diff_states(layer, dir, iter, state)`.  `type_size`
(`types::data_type_size`, declared elsewhere) and `get_storage` are parameters. -/
def scratch_t.diff_states (type_size : Nat → Int) (get_storage : Option mst → mst)
    (s : scratch_t) (layer dir iter state : Int) : Option sub_storage :=
  let aux_elsz := toInt32 (type_size s.conf_.aux_data_type)
  match s.diff_states_ with
  | none => some sub_storage.empty
  | some _ =>
    (s.calc_off_diff_state layer dir iter state 0 0).bind fun o =>
      (mul64 o aux_elsz).map fun off_ =>
        sub_storage.clone_ptr_off (get_storage s.diff_states_) off_

/-- The constructor `scratch_t(conf, scratchpad)`; the grantor is the function
`scratchpad.get_memory_storage`, which hands back a null pointer for a key that was not
booked. -/
def scratch_t.ctor (conf : conf_t) (get_memory_storage : memory_tracking.names → Option mst) :
    scratch_t :=
  { conf_ := conf,
    gates_ := get_memory_storage memory_tracking.names.key_rnn_gates,
    diff_gates_ := get_memory_storage memory_tracking.names.key_rnn_diff_gates,
    cell_ := get_memory_storage memory_tracking.names.key_rnn_cell,
    diff_states_ := get_memory_storage memory_tracking.names.key_rnn_diff_states }

/-- The member `calc_off_gates(iter)`. -/
def scratch_t.calc_off_gates (s : scratch_t) (iter : Int) : Option Int :=
  if s.conf_.n_iter_scratch_gates ≠ 1 then
    (mul64 iter s.conf_.mb).bind fun a =>
      (mul64 a s.conf_.scratch_gates_ld).bind fun b => mul64 b s.conf_.ws_gates_elsz
  else some 0

/-- The accessor `gates()`: `assert(gates_); return gates_.get();`.  The result is the
raw pointer (`none` when null); the assertion is compiled out when `ndebug` is set and
is a failure otherwise. -/
def scratch_t.gates_ptr (ndebug : Bool) (s : scratch_t) : Option (Option mst) :=
  match s.gates_ with
  | some g => some (some g)
  | none => if ndebug then some none else none

/-- The member `gates(iter)`. -/
def scratch_t.gates (ndebug : Bool) (s : scratch_t) (iter : Int) : Option sub_storage :=
  (s.gates_ptr ndebug).bind fun g =>
    match g with
    | none => some sub_storage.empty
    | some g =>
      (s.calc_off_gates iter).map fun off => sub_storage.clone_ptr_off g off

/-- The member `calc_off_diff_gates(iter)`. -/
def scratch_t.calc_off_diff_gates (s : scratch_t) (iter : Int) : Option Int :=
  if s.conf_.n_iter_scratch_gates ≠ 1 then
    (mul64 iter s.conf_.mb).bind fun a => mul64 a s.conf_.scratch_diff_gates_ld
  else some 0

/-- The accessor `diff_gates()`: `return (diff_gates_.get());`. -/
def scratch_t.diff_gates_ptr (s : scratch_t) : Option mst := s.diff_gates_

/-- The member `diff_gates(iter)`.  Its first statement is `auto g = gates();`. -/
def scratch_t.diff_gates (ndebug : Bool) (s : scratch_t) (iter : Int) : Option sub_storage :=
  (s.gates_ptr ndebug).bind fun g =>
    match g with
    | none => some sub_storage.empty
    | some g =>
      (s.calc_off_diff_gates iter).bind fun o =>
        (mul64 o s.conf_.scratch_diff_gates_elsz).map fun off =>
          sub_storage.clone_ptr_off g off

/-! ## `calc_global_range` and `get_outer_strides` -/

/-- Reduction of a natural number to `size_t` (64 bits). -/
def toSize_t (x : Nat) : Nat := x % 18446744073709551616

/-- The function `calc_global_range(lc_range, gl_range)` on `size_t` values:
`((gl_range + (lc_range - 1)) / lc_range) * lc_range`, every operation reduced modulo
`2^64`; the division by `lc_range = 0` is undefined. -/
def calc_global_range (lc_range gl_range : Nat) : Option Nat :=
  if lc_range = 0 then none
  else
    some (toSize_t
      (toSize_t (gl_range + toSize_t (lc_range + 18446744073709551616 - 1)) / lc_range
        * lc_range))

/-- The type `dims_t`, an array of `DNNL_MAX_NDIMS = 12` values of `dim_t`. -/
abbrev dims_t := Fin 12 → Int

/-- Modelled from the spec: the part of `memory_desc_wrapper`
(`common/memory_desc_wrapper.hpp`, not among the sources at hand) that
`get_outer_strides` reads, a passive descriptor in the sense of section 1: the number of
dimensions `ndims()`, the padded dimensions `padded_dims()` and the strides `strides()`
of the blocking descriptor. -/
structure memory_desc_wrapper where
  ndims : Int
  padded_dims : dims_t
  strides : dims_t

/-- The body of the loop of `get_outer_strides` for one value of `d`, `0 <= d <= 4`. -/
def get_outer_strides_step (md : memory_desc_wrapper) (ret : dims_t) (d : Fin 5) :
    Option dims_t :=
  let i : Fin 12 := ⟨d.val, Nat.lt_of_lt_of_le d.isLt (by decide)⟩
  let j : Fin 12 := ⟨d.val + 1, Nat.lt_of_lt_of_le (Nat.succ_lt_succ d.isLt) (by decide)⟩
  if (d.val : Int) ≥ md.ndims then some (Function.update ret i 0)
  else if md.padded_dims i > 1 then some (Function.update ret i (md.strides i))
  else if (d.val : Int) = md.ndims - 1 then some (Function.update ret i 1)
  else (mul64 (ret j) (md.padded_dims j)).map fun v => Function.update ret i v

/-- The array `ret` in `get_outer_strides(md, ret)` after `k` iterations of the loop
`for (int d = 4; d >= 0; d--)`, that is after `d = 4, ..., 5 - k`. -/
def get_outer_strides_iter (md : memory_desc_wrapper) (ret : dims_t) : Nat → Option dims_t
  | 0 => some ret
  | k + 1 =>
    if h : k < 5 then
      (get_outer_strides_iter md ret k).bind fun r =>
        get_outer_strides_step md r ⟨4 - k, Nat.lt_of_le_of_lt (Nat.sub_le 4 k) (by decide)⟩
    else get_outer_strides_iter md ret k

/-- The function `get_outer_strides(md, ret)`: the final contents of `ret`. -/
def get_outer_strides (md : memory_desc_wrapper) (ret : dims_t) : Option dims_t :=
  get_outer_strides_iter md ret 5

/-- The value `get_outer_strides` is expected to leave in `ret[d]` for a dense layout:
the stride of dimension `d` when `d < ndims`, and 0 otherwise. -/
def outer_stride (md : memory_desc_wrapper) (d : Fin 12) : Int :=
  if (d.val : Int) < md.ndims then md.strides d else 0

/-- The layout of `md` is densely packed and row-major: the last dimension has stride 1
and `strides[d] = strides[d + 1] * padded_dims[d + 1]` for the others. -/
def dense_row_major (md : memory_desc_wrapper) : Prop :=
  (∀ d : Fin 12, (d.val : Int) + 1 = md.ndims → md.strides d = 1) ∧
  ∀ d : Fin 11, (d.val : Int) + 1 < md.ndims →
    md.strides d.castSucc = md.strides d.succ * md.padded_dims d.succ

instance (md : memory_desc_wrapper) : Decidable (dense_row_major md) := by
  unfold dense_row_major; infer_instance

/-! ## Sample configurations -/

/-- A small forward-training configuration: 2 layers, 2 directions, 3 iterations,
minibatch 3, leading dimensions 4 (states) and 5 (gates), 4-byte elements, all three
workspace parts present. -/
def conf_small : conf_t :=
  { n_layer := 2, n_iter := 3, n_dir := 2, n_gates := 1, n_states := 1, mb := 3,
    slc := 4, sic := 4, dhc := 4, dlc := 4, gates_ld := 5, gates_ws_ld := 5,
    n_bias := 1, n_parts_bias := 1, parts_bias := [1], iter_loop := 1,
    states_ws_ld := 4, scratch_diff_states_ld := 4,
    is_fwd := true, is_training := true, use_workspace := true,
    ws_states_cell_size := 48, ws_gates_cell_size := 60,
    ws_gates_size := 960, ws_states_size := 1152, scratch_cell_size := 48,
    ws_per_cell := 48, scratch_diff_states_size := 2304, ws_bias_size := 64,
    ws_gates_offset := 0, ws_states_offset := 1472, ws_bias_offset := 2624,
    ws_gates_elsz := 4, ws_states_elsz := 4, ws_bias_elsz := 4,
    n_iter_scratch_gates := 3, scratch_gates_size := 180, scratch_gates_elsz := 4,
    scratch_gates_ld := 5, scratch_diff_gates_size := 180, scratch_diff_gates_elsz := 4,
    scratch_diff_gates_ld := 5, local_ranges := [8, 8, 4],
    acc_data_type := 3, aux_data_type := 3, input_data_type := 3, output_data_type := 3,
    ws_data_type := 3, src_data_type := 3, dst_data_type := 3, diff_data_type := 3,
    wei_layer_type := 3, wei_iter_type := 3, bias_data_type := 3 }

/-- A one-cell configuration (one layer slot, one direction, one time step, minibatch 1)
whose rows are `2^30` elements long, so that the workspace holds `2^30` elements. -/
def conf_wide : conf_t :=
  { conf_small with
    n_layer := 0, n_iter := 0, n_dir := 1, mb := 1,
    gates_ws_ld := 1073741824, states_ws_ld := 1073741824,
    ws_gates_size := 1073741824, ws_states_size := 1073741824,
    ws_gates_elsz := 1, ws_states_elsz := 1 }

/-- The workspace buffer used in the samples. -/
def ws_sample : mst := { buffer := 0, offset := 0 }

/-- The workspace built by the constructor from `ws_sample` and `conf_small`. -/
def workspace_small : workspace_t :=
  { ws_ := ws_sample, conf_ := conf_small,
    gates_ := some { buffer := 0, offset := 0 },
    gates_strides_ := ![120, 60, 15, 5],
    states_ := some { buffer := 0, offset := 1472 },
    states_strides_ := ![96, 48, 12, 1],
    bias_ := some { buffer := 0, offset := 2624 } }

/-- The workspace built by the constructor from `ws_sample` and `conf_wide`. -/
def workspace_wide : workspace_t :=
  { ws_ := ws_sample, conf_ := conf_wide,
    gates_ := some { buffer := 0, offset := 0 },
    gates_strides_ := ![1073741824, 1073741824, 1073741824, 1073741824],
    states_ := some { buffer := 0, offset := 1472 },
    states_strides_ := ![1073741824, 1073741824, 1073741824, 1],
    bias_ := some { buffer := 0, offset := 2624 } }

/-- A degenerate configuration with an empty minibatch (`mb = 0`) and `2^62` directions:
all dimensions are non-negative and the workspace holds no element. -/
def conf_flat : conf_t :=
  { conf_small with
    n_layer := 3, n_iter := 0, n_dir := 4611686018427387904, mb := 0,
    gates_ws_ld := 1, states_ws_ld := 1 }

/-- The workspace built by the constructor from `ws_sample` and `conf_flat`. -/
def workspace_flat : workspace_t :=
  { ws_ := ws_sample, conf_ := conf_flat,
    gates_ := some { buffer := 0, offset := 0 },
    gates_strides_ := ![0, 0, 0, 1],
    states_ := some { buffer := 0, offset := 1472 },
    states_strides_ := ![0, 0, 0, 1],
    bias_ := some { buffer := 0, offset := 2624 } }

/-- A degenerate configuration without directions (`n_dir = 0`) and a minibatch of
`2^32`: all dimensions are non-negative and the workspace holds no element. -/
def conf_nodir : conf_t :=
  { conf_small with
    n_layer := 0, n_iter := 0, n_dir := 0, mb := 4294967296,
    gates_ws_ld := 1, states_ws_ld := 1 }

/-- The workspace built by the constructor from `ws_sample` and `conf_nodir`. -/
def workspace_nodir : workspace_t :=
  { ws_ := ws_sample, conf_ := conf_nodir,
    gates_ := some { buffer := 0, offset := 0 },
    gates_strides_ := ![0, 0, 0, 1],
    states_ := some { buffer := 0, offset := 1472 },
    states_strides_ := ![0, 0, 0, 1],
    bias_ := some { buffer := 0, offset := 2624 } }

/-- A scratchpad for `conf_small` in which all four buffers were granted. -/
def scratch_small : scratch_t :=
  { conf_ := conf_small,
    gates_ := some { buffer := 1, offset := 0 },
    diff_gates_ := some { buffer := 2, offset := 0 },
    cell_ := some { buffer := 3, offset := 0 },
    diff_states_ := some { buffer := 4, offset := 0 } }

/-- A `get_storage` for the samples: the pointee, or an empty storage for a null pointer. -/
def get_storage_sample (p : Option mst) : mst := p.getD { buffer := 0, offset := 0 }

/-- A `type_size` for the samples: every element type is 4 bytes wide. -/
def type_size_sample (_ : Nat) : Int := 4

/-- The configuration `conf_small` without a bias part in the workspace. -/
def conf_no_bias : conf_t := { conf_small with ws_bias_size := 0 }

/-- The configuration `conf_small` with only the bias part in the workspace. -/
def conf_bias_only : conf_t := { conf_small with ws_gates_size := 0, ws_states_size := 0 }

/-- The workspace built by the constructor from `ws_sample` and `conf_bias_only`. -/
def workspace_bias_only : workspace_t :=
  { ws_ := ws_sample, conf_ := conf_bias_only,
    gates_ := none, gates_strides_ := ![0, 0, 0, 0],
    states_ := none, states_strides_ := ![0, 0, 0, 0],
    bias_ := some { buffer := 0, offset := 2624 } }

/-- A grantor in which all four scratch buffers were booked, each in its own buffer. -/
def grantor_sample : memory_tracking.names → Option mst
  | memory_tracking.names.key_rnn_gates => some { buffer := 1, offset := 0 }
  | memory_tracking.names.key_rnn_diff_gates => some { buffer := 2, offset := 0 }
  | memory_tracking.names.key_rnn_cell => some { buffer := 3, offset := 0 }
  | memory_tracking.names.key_rnn_diff_states => some { buffer := 4, offset := 0 }

/-- A grantor as `book_bwd` leaves it when `scratch_gates_size` is 0: no gates buffer, the
other three booked. -/
def grantor_no_gates : memory_tracking.names → Option mst
  | memory_tracking.names.key_rnn_gates => none
  | k => grantor_sample k

/-- A grantor as `book_fwd` leaves it: no diff-gates and no diff-states buffer. -/
def grantor_fwd : memory_tracking.names → Option mst
  | memory_tracking.names.key_rnn_diff_gates => none
  | memory_tracking.names.key_rnn_diff_states => none
  | k => grantor_sample k

/-- A dense row-major descriptor of a `2 x 1 x 3` tensor. -/
def md_sample : memory_desc_wrapper :=
  { ndims := 3,
    padded_dims := ![2, 1, 3, 0, 0, 0, 0, 0, 0, 0, 0, 0],
    strides := ![3, 3, 1, 0, 0, 0, 0, 0, 0, 0, 0, 0] }

/-- An array `ret` with arbitrary previous contents. -/
def ret_sample : dims_t := ![7, 7, 7, 7, 7, 7, 7, 7, 7, 7, 7, 7]

/-- The all-zero array `ret`. -/
def ret_zero : dims_t := fun _ => 0

end rnn_utils

end dnnl

/-! ## gemmstone: the microkernel provider -/

namespace gemmstone

/-- The struct `HWInformation`: `uint32_t gmdid; int euCount; bool systolicAvailable;`. -/
structure HWInformation where
  gmdid : Nat
  euCount : Int
  systolicAvailable : Bool
deriving DecidableEq, Repr

/-- The field values of an `HWInformation` are representable in their declared types,
`uint32_t` and `int`. -/
def HWInformation.well_typed (hw : HWInformation) : Prop :=
  hw.gmdid < 4294967296 ∧ dnnl.fitsInt32 hw.euCount

instance (hw : HWInformation) : Decidable hw.well_typed := by
  unfold HWInformation.well_typed; infer_instance

/-- The loop of `alignmentForLD`, `for (int x = 1; x <= 64; x <<= 1) if (ld & x) return x;`
followed by `return 128;`, started at `x` with `fuel` loop tests left.  `x <<= 1` doubles
`x`, which never exceeds 128. -/
def alignmentForLD_loop : Nat → Int → Int → Option Int
  | 0, _, _ => none
  | fuel + 1, ld, x =>
    if x ≤ 64 then
      if Int.land ld x ≠ 0 then some x else alignmentForLD_loop fuel ld (x * 2)
    else some 128

/-- The helper `alignmentForLD(ld)`; the loop test runs at most eight times
(`x = 1, 2, ..., 128`). -/
def alignmentForLD (ld : Int) : Option Int := alignmentForLD_loop 8 ld 1

/-! ### Selection

`selectGEMMMicrokernel` is only declared in the header; its body and the types
`micro::GEMMProtocol`, `SizeParams`, `GEMMProblem`, `StrategyRequirement`, `GEMMStrategy`
and `micro::Package` live in files that are not at hand.  They are modelled from the
design document (sections 3, 4 and 7). -/

/-- Modelled from the spec: `micro::GEMMProtocol`, the enumerated tag identifying the
calling convention (section 6). -/
structure GEMMProtocol where
  tag : Nat
deriving DecidableEq, Repr

/-- Modelled from the spec: `SizeParams`, the dimensions M, N, K and the
leading-dimension/alignment hints (section 3). -/
structure SizeParams where
  m : Int
  n : Int
  k : Int
  hints : List Int
deriving DecidableEq, Repr

/-- Modelled from the spec: `GEMMProblem`, the operand types, the accumulation type and
the transpose flags (section 3). -/
structure GEMMProblem where
  operandTypes : List Nat
  accType : Nat
  transA : Bool
  transB : Bool
deriving DecidableEq, Repr

/-- Modelled from the spec: `StrategyRequirement`, a named constraint with its value
(section 3). -/
structure StrategyRequirement where
  name : Nat
  value : Int
deriving DecidableEq, Repr

/-- Modelled from the spec: `GEMMStrategy`, a candidate strategy: tile dimensions,
thread-group shape, instruction class and staging policy (section 3), and the alignment
it declares (section 8). -/
structure GEMMStrategy where
  tileM : Nat
  tileN : Nat
  tileK : Nat
  wgM : Nat
  wgN : Nat
  systolic : Bool
  staging : Nat
  alignment : Nat
deriving DecidableEq, Repr

/-- Modelled from the spec: `micro::Package`, the winning strategy, the protocol tag and
the resource-usage summary (section 3). -/
structure Package where
  strategy : GEMMStrategy
  protocol : GEMMProtocol
  resourceUsage : Nat
deriving DecidableEq, Repr

/-- Modelled from the spec: the three kinds of failure of a selection call (section 7). -/
inductive SelectError where
  | NoFeasibleCandidate
  | ResourceLimitExceeded
  | InvalidRequirement
deriving DecidableEq, Repr

/-- Modelled from the spec: the collaborators of the selection engine, whose bodies are
not in the header: the enumerator (4.1), the vocabulary check of requirements (7), the
satisfaction test of the requirement filter (4.2), the score of the cost evaluator (4.3)
and the resource usage and hardware limit used by the package builder (4.5). -/
structure Engine where
  enumerate : HWInformation → GEMMProblem → List GEMMStrategy
  recognised : StrategyRequirement → Bool
  satisfies : GEMMStrategy → StrategyRequirement → Bool
  score : HWInformation → SizeParams → GEMMProblem → GEMMStrategy → Int
  resourceUsage : GEMMStrategy → Nat
  hardLimit : HWInformation → Nat

/-- Modelled from the spec: the requirement filter (4.2) keeps, in order, the candidates
satisfying all requirements. -/
def requirementFilter (E : Engine) (reqs : List StrategyRequirement)
    (cands : List GEMMStrategy) : List GEMMStrategy :=
  cands.filter fun s => reqs.all fun r => E.satisfies s r

/-- Modelled from the spec: selection of the maximum-scoring candidate, the earliest in
enumeration order winning a tie (4.3). -/
def pickBest (score : GEMMStrategy → Int) : List GEMMStrategy → Option GEMMStrategy
  | [] => none
  | s :: rest =>
    match pickBest score rest with
    | none => some s
    | some b => if score s < score b then some b else some s

/-- Modelled from the spec: the adjuster hook (4.4), applied once to the winning
candidate; absent, the candidate is left as it is.  It stands for the parameter
`void (*strategyAdjuster)(GEMMStrategy &)`, `none` being `nullptr`. -/
def applyAdjuster (strategyAdjuster : Option (GEMMStrategy → GEMMStrategy))
    (best : GEMMStrategy) : GEMMStrategy :=
  match strategyAdjuster with
  | none => best
  | some f => f best

/-- Modelled from the spec: the package builder (4.5); it fails only when the resource
usage of the strategy exceeds the hardware limit. -/
def buildPackage (E : Engine) (protocol : GEMMProtocol) (hwInfo : HWInformation)
    (s : GEMMStrategy) : Except SelectError Package :=
  if E.resourceUsage s ≤ E.hardLimit hwInfo then
    Except.ok { strategy := s, protocol := protocol, resourceUsage := E.resourceUsage s }
  else Except.error SelectError.ResourceLimitExceeded

/-- Modelled from the spec: `selectGEMMMicrokernel`, declared in the header and defined
elsewhere, as the composition of sections 4.1 to 4.5 described in 4.6: requirements
outside the vocabulary are rejected first, then the candidates are enumerated, filtered
and ranked, the adjuster is applied to the winner and the result is packaged. -/
def selectGEMMMicrokernel (E : Engine) (protocol : GEMMProtocol) (hwInfo : HWInformation)
    (sizes : SizeParams) (problem : GEMMProblem) (reqs : List StrategyRequirement)
    (strategyAdjuster : Option (GEMMStrategy → GEMMStrategy)) : Except SelectError Package :=
  if reqs.all E.recognised then
    match pickBest (E.score hwInfo sizes problem)
        (requirementFilter E reqs (E.enumerate hwInfo problem)) with
    | none => Except.error SelectError.NoFeasibleCandidate
    | some best => buildPackage E protocol hwInfo (applyAdjuster strategyAdjuster best)
  else Except.error SelectError.InvalidRequirement

/-- Modelled from the spec: candidate `best`, at position `i` of the filtered sequence
`cands`, is the winner in the sense of 4.3: no candidate scores higher and every earlier
candidate scores strictly lower. -/
def IsWinner (score : GEMMStrategy → Int) (cands : List GEMMStrategy) (i : Nat)
    (best : GEMMStrategy) : Prop :=
  cands[i]? = some best ∧
  (∀ (j : Nat) (c : GEMMStrategy), cands[j]? = some c → score c ≤ score best) ∧
  (∀ (j : Nat) (c : GEMMStrategy), j < i → cands[j]? = some c → score c < score best)

/-- Modelled from the spec: `pkg` is an outcome the design document allows for a selection
call (3, 4.2 to 4.6): every requirement is in the vocabulary, and `pkg` packages the
adjusted winner among the candidates that satisfy all requirements. -/
def Selects (E : Engine) (protocol : GEMMProtocol) (hwInfo : HWInformation)
    (sizes : SizeParams) (problem : GEMMProblem) (reqs : List StrategyRequirement)
    (strategyAdjuster : Option (GEMMStrategy → GEMMStrategy)) (pkg : Package) : Prop :=
  (∀ r ∈ reqs, E.recognised r = true) ∧
  ∃ (i : Nat) (best : GEMMStrategy),
    IsWinner (E.score hwInfo sizes problem)
      (requirementFilter E reqs (E.enumerate hwInfo problem)) i best ∧
    buildPackage E protocol hwInfo (applyAdjuster strategyAdjuster best) = Except.ok pkg

/-! ### A sample engine -/

/-- A scalar 16x16 strategy. -/
def strategy_scalar16 : GEMMStrategy :=
  { tileM := 16, tileN := 16, tileK := 8, wgM := 4, wgN := 4, systolic := false,
    staging := 0, alignment := 16 }

/-- A scalar 32x16 strategy. -/
def strategy_scalar32 : GEMMStrategy :=
  { tileM := 32, tileN := 16, tileK := 8, wgM := 4, wgN := 4, systolic := false,
    staging := 0, alignment := 32 }

/-- A systolic 32x32 strategy. -/
def strategy_systolic32 : GEMMStrategy :=
  { tileM := 32, tileN := 32, tileK := 16, wgM := 4, wgN := 4, systolic := true,
    staging := 1, alignment := 64 }

/-- A second scalar 32x16 strategy, scoring like `strategy_scalar32`. -/
def strategy_scalar32b : GEMMStrategy :=
  { tileM := 16, tileN := 32, tileK := 8, wgM := 4, wgN := 4, systolic := false,
    staging := 0, alignment := 32 }

/-- A sample engine.  Systolic strategies are enumerated only on hardware with systolic
units; requirement 0 asks for a minimal declared alignment, requirement 1 for the
instruction class; the score is the tile area, doubled for systolic strategies. -/
def engine_sample : Engine :=
  { enumerate := fun hw _ =>
      if hw.systolicAvailable then
        [strategy_scalar16, strategy_scalar32, strategy_systolic32, strategy_scalar32b]
      else [strategy_scalar16, strategy_scalar32, strategy_scalar32b],
    recognised := fun r => decide (r.name ≤ 1),
    satisfies := fun s r =>
      if r.name = 0 then decide (r.value ≤ s.alignment)
      else decide (s.systolic = decide (r.value ≠ 0)),
    score := fun _ _ _ s => if s.systolic then 2 * (s.tileM * s.tileN) else s.tileM * s.tileN,
    resourceUsage := fun s => s.tileM * s.tileN,
    hardLimit := fun _ => 4096 }

/-- The sample hardware of the design document: 512 execution units, systolic units. -/
def hw_sample : HWInformation := { gmdid := 1, euCount := 512, systolicAvailable := true }

/-- The same hardware without systolic units. -/
def hw_scalar : HWInformation := { gmdid := 1, euCount := 512, systolicAvailable := false }

/-- A hardware description without execution units. -/
def hw_no_eu : HWInformation := { gmdid := 1, euCount := 0, systolicAvailable := false }

/-- The sample problem sizes, `M = N = K = 4096`. -/
def sizes_sample : SizeParams := { m := 4096, n := 4096, k := 4096, hints := [] }

/-- The sample problem: half-precision operands, single-precision accumulation. -/
def problem_sample : GEMMProblem :=
  { operandTypes := [1, 1, 1], accType := 2, transA := false, transB := false }

/-- The sample protocol tag. -/
def protocol_sample : GEMMProtocol := { tag := 0 }

/-- The package of `strategy_scalar32` under the sample protocol. -/
def package_scalar32 : Package :=
  { strategy := strategy_scalar32, protocol := protocol_sample, resourceUsage := 512 }

/-- The package of `strategy_scalar32b` under the sample protocol. -/
def package_scalar32b : Package :=
  { strategy := strategy_scalar32b, protocol := protocol_sample, resourceUsage := 512 }

/-- The package of `strategy_systolic32` under the sample protocol. -/
def package_systolic32 : Package :=
  { strategy := strategy_systolic32, protocol := protocol_sample, resourceUsage := 1024 }

/-- The package of `strategy_scalar16` under the sample protocol. -/
def package_scalar16 : Package :=
  { strategy := strategy_scalar16, protocol := protocol_sample, resourceUsage := 256 }

/-- An adjuster that overwrites every field of the strategy with those of
`strategy_scalar16`. -/
def adjuster_to_scalar16 (_ : GEMMStrategy) : GEMMStrategy := strategy_scalar16

/-- The requirement "declared alignment at least 32" of the sample engine. -/
def req_alignment32 : StrategyRequirement := { name := 0, value := 32 }

end gemmstone

namespace dnnl

theorem toInt32_of_fits (x : Int) (h : fitsInt32 x) : toInt32 x = x := by
  unfold fitsInt32 at h
  unfold toInt32
  omega

theorem toInt32_fits (x : Int) : fitsInt32 (toInt32 x) := by
  unfold fitsInt32 toInt32
  omega

theorem toInt32_emod (x : Int) : toInt32 x % 4294967296 = x % 4294967296 := by
  unfold toInt32
  omega

theorem toInt32_congr (x y : Int) (h : x % 4294967296 = y % 4294967296) :
    toInt32 x = toInt32 y := by
  unfold toInt32
  omega

theorem chk64_of_fits (x : Int) (h : fitsInt64 x) : chk64 x = some x := by
  simp [chk64, h]

/-- One step of the loop preserves congruence modulo `2^32`. -/
theorem toInt32_step (x d i : Int) : toInt32 (toInt32 x * d + i) = toInt32 (x * d + i) := by
  apply toInt32_congr
  have h := toInt32_emod x
  rw [Int.add_emod, Int.mul_emod, h, ← Int.mul_emod, ← Int.add_emod]

theorem calc_offset_iter_eq (N : Nat) (Ds : Fin N → Int) (Is : Fin (N + 1) → Int) (i : Nat)
    (h : no_overflow64 N Ds Is i) :
    calc_offset_iter N Ds Is i = some (toInt32 (lin_index N Ds Is i)) := by
  induction i with
  | zero => rfl
  | succ i ih =>
    obtain ⟨h1, h2⟩ := h
    by_cases hi : i < N
    · obtain ⟨h3, h4⟩ := h2 hi
      simp only [calc_offset_iter, lin_index, hi, dif_pos, ih h1, Option.some_bind, mul64,
        add64, chk64_of_fits _ h3, chk64_of_fits _ h4, Option.map_some', toInt32_step]
    · simp only [calc_offset_iter, lin_index, hi, dif_neg, not_false_eq_true, ih h1]

theorem calc_offset_iter_fits (N : Nat) (Ds : Fin N → Int) (Is : Fin (N + 1) → Int) (i : Nat)
    (r : Int) (h : calc_offset_iter N Ds Is i = some r) : fitsInt32 r := by
  induction i generalizing r with
  | zero =>
    simp only [calc_offset_iter, Option.some.injEq] at h
    exact h ▸ toInt32_fits _
  | succ i ih =>
    by_cases hi : i < N
    · simp only [calc_offset_iter, hi, dif_pos, Option.bind_eq_some, Option.map_eq_some'] at h
      obtain ⟨_, _, _, _, _, _, h⟩ := h
      exact h ▸ toInt32_fits _
    · simp only [calc_offset_iter, hi, dif_neg, not_false_eq_true] at h
      exact ih r h

/-- The product of two `int` values is representable in `dim_t`. -/
theorem fitsInt64_mul_of_fitsInt32 (a b : Int) (ha : fitsInt32 a) (hb : fitsInt32 b) :
    fitsInt64 (a * b) := by
  unfold fitsInt32 at ha hb
  unfold fitsInt64
  have h1 : |a| ≤ 2147483648 := abs_le.mpr ⟨by omega, by omega⟩
  have h2 : |b| ≤ 2147483648 := abs_le.mpr ⟨by omega, by omega⟩
  have h3 : |a * b| ≤ 2147483648 * 2147483648 := by
    rw [abs_mul]
    exact mul_le_mul h1 h2 (abs_nonneg _) (by norm_num)
  have h4 := abs_le.mp h3
  omega

/-! ### Linear indices of in-bounds tuples -/

theorem lin_index_succ (N : Nat) (Ds : Fin N → Int) (Is : Fin (N + 1) → Int) (i : Nat)
    (h : i < N) :
    lin_index N Ds Is (i + 1) = lin_index N Ds Is i * Ds ⟨i, h⟩ + Is (Fin.succ ⟨i, h⟩) := by
  simp only [lin_index, h, dif_pos]
  rfl

theorem dims_prod_succ (N : Nat) (Ds : Fin N → Int) (i : Nat) (h : i < N) :
    dims_prod N Ds (i + 1) = dims_prod N Ds i * Ds ⟨i, h⟩ := by
  simp only [dims_prod, h, dif_pos]

theorem dims_prod_pos (N : Nat) (Ds : Fin N → Int) (hD : ∀ i : Fin N, 0 < Ds i) (i : Nat) :
    0 < dims_prod N Ds i := by
  induction i with
  | zero => simp [dims_prod]
  | succ i ih =>
    by_cases h : i < N
    · rw [dims_prod_succ N Ds i h]
      exact mul_pos ih (hD ⟨i, h⟩)
    · simpa only [dims_prod, h, dif_neg, not_false_eq_true] using ih

/-- For an in-bounds tuple every partial linear index is non-negative and below
`(Is[0] + 1) * Ds[0] * ... * Ds[i-1]`. -/
theorem lin_index_bounds (N : Nat) (Ds : Fin N → Int) (Is : Fin (N + 1) → Int)
    (hb : in_bounds N Ds Is) (i : Nat) :
    0 ≤ lin_index N Ds Is i ∧ lin_index N Ds Is i + 1 ≤ (Is 0 + 1) * dims_prod N Ds i := by
  induction i with
  | zero => simp [lin_index, dims_prod, hb.1]
  | succ i ih =>
    by_cases h : i < N
    · obtain ⟨hd, hi0, hi1⟩ := hb.2 ⟨i, h⟩
      obtain ⟨ih0, ih1⟩ := ih
      rw [lin_index_succ N Ds Is i h, dims_prod_succ N Ds i h]
      constructor
      · have := mul_nonneg ih0 hd.le
        omega
      · have h1 : (lin_index N Ds Is i + 1) * Ds ⟨i, h⟩ ≤
            (Is 0 + 1) * dims_prod N Ds i * Ds ⟨i, h⟩ :=
          mul_le_mul_of_nonneg_right ih1 hd.le
        have h2 : (lin_index N Ds Is i + 1) * Ds ⟨i, h⟩ =
            lin_index N Ds Is i * Ds ⟨i, h⟩ + Ds ⟨i, h⟩ := by ring
        rw [mul_assoc] at h1
        omega
    · simpa only [lin_index, dims_prod, h, dif_neg, not_false_eq_true] using ih

/-- For an in-bounds tuple the partial linear indices do not decrease along the loop. -/
theorem lin_index_le_succ (N : Nat) (Ds : Fin N → Int) (Is : Fin (N + 1) → Int)
    (hb : in_bounds N Ds Is) (i : Nat) : lin_index N Ds Is i ≤ lin_index N Ds Is (i + 1) := by
  by_cases h : i < N
  · obtain ⟨hd, hi0, _⟩ := hb.2 ⟨i, h⟩
    have h0 := (lin_index_bounds N Ds Is hb i).1
    rw [lin_index_succ N Ds Is i h]
    have : lin_index N Ds Is i * 1 ≤ lin_index N Ds Is i * Ds ⟨i, h⟩ :=
      mul_le_mul_of_nonneg_left (by omega) h0
    omega
  · simp only [lin_index, h, dif_neg, not_false_eq_true, le_refl]

/-- For an in-bounds tuple whose partial linear index after `i` iterations fits in an
`int`, the first `i` iterations of `calc_offset` do not overflow. -/
theorem no_overflow64_of_in_bounds (N : Nat) (Ds : Fin N → Int) (Is : Fin (N + 1) → Int)
    (hb : in_bounds N Ds Is) (i : Nat) (hf : fitsInt32 (lin_index N Ds Is i)) :
    no_overflow64 N Ds Is i := by
  induction i with
  | zero => trivial
  | succ i ih =>
    have h0 := (lin_index_bounds N Ds Is hb i).1
    have hle := lin_index_le_succ N Ds Is hb i
    have hfi : fitsInt32 (lin_index N Ds Is i) := by
      unfold fitsInt32 at hf ⊢
      omega
    refine ⟨ih hfi, fun h => ?_⟩
    obtain ⟨hd, hi0, _⟩ := hb.2 ⟨i, h⟩
    have hs := lin_index_succ N Ds Is i h
    have hp := mul_nonneg h0 hd.le
    rw [toInt32_of_fits _ hfi]
    change fitsInt64 _ ∧ fitsInt64 (_ + Is (Fin.succ ⟨i, h⟩))
    unfold fitsInt64
    unfold fitsInt32 at hf
    omega

/-- On an in-bounds tuple whose linear index fits in an `int`, `calc_offset` returns
exactly that index. -/
theorem calc_offset_of_in_bounds (N : Nat) (Ds : Fin N → Int) (Is : Fin (N + 1) → Int)
    (hb : in_bounds N Ds Is) (hf : fitsInt32 (lin_index N Ds Is N)) :
    calc_offset N Ds Is = some (lin_index N Ds Is N) := by
  have h := calc_offset_iter_eq N Ds Is N (no_overflow64_of_in_bounds N Ds Is hb N hf)
  rw [toInt32_of_fits _ hf] at h
  exact h

/-- Two in-bounds tuples with the same partial linear index after `i` iterations agree
on their first `i + 1` entries. -/
theorem lin_index_inj (N : Nat) (Ds : Fin N → Int) (Is Js : Fin (N + 1) → Int)
    (hI : in_bounds N Ds Is) (hJ : in_bounds N Ds Js) (i : Nat) (hi : i ≤ N)
    (h : lin_index N Ds Is i = lin_index N Ds Js i) :
    ∀ j : Fin (N + 1), j.val ≤ i → Is j = Js j := by
  induction i with
  | zero =>
    intro j hj
    have : j = 0 := Fin.ext (by simpa using hj)
    subst this
    simpa [lin_index] using h
  | succ i ih =>
    have hiN : i < N := hi
    rw [lin_index_succ N Ds Is i hiN, lin_index_succ N Ds Js i hiN] at h
    obtain ⟨hd, hi0, hi1⟩ := hI.2 ⟨i, hiN⟩
    obtain ⟨_, hj0, hj1⟩ := hJ.2 ⟨i, hiN⟩
    have hlast : Is (Fin.succ ⟨i, hiN⟩) = Js (Fin.succ ⟨i, hiN⟩) := by
      have e1 := Int.emod_eq_of_lt hi0 hi1
      have e2 := Int.emod_eq_of_lt hj0 hj1
      have := congrArg (· % Ds ⟨i, hiN⟩) h
      simp only [Int.add_emod, Int.mul_emod_left, zero_add, Int.emod_emod_of_dvd, dvd_refl,
        e1, e2] at this
      exact this
    have hprev : lin_index N Ds Is i = lin_index N Ds Js i := by
      rw [hlast] at h
      have := add_right_cancel h
      exact mul_right_cancel₀ hd.ne' this
    intro j hj
    by_cases hji : j.val ≤ i
    · exact ih (Nat.le_of_lt hiN) hprev j hji
    · have : j = Fin.succ ⟨i, hiN⟩ := Fin.ext (by simp; omega)
      rw [this]
      exact hlast

namespace rnn_utils

/-! ### The workspace constructor and its strides -/

theorem pos_mul_bounds (x y : Int) (hx : 0 < x) (hy : 0 < y) :
    0 < x * y ∧ x ≤ x * y ∧ y ≤ x * y := by
  refine ⟨mul_pos hx hy, ?_, ?_⟩
  · have := mul_le_mul_of_nonneg_left (show (1 : Int) ≤ y by omega) hx.le
    omega
  · have := mul_le_mul_of_nonneg_right (show (1 : Int) ≤ x by omega) hy.le
    omega

theorem ctor_eq_some (ws : mst) (conf : conf_t) (w : workspace_t)
    (h : workspace_t.ctor ws conf = some w) :
    w.conf_ = conf ∧
    (0 < conf.ws_states_size →
      w.states_ ≠ none ∧ workspace_t.init_states_strides conf = some w.states_strides_) ∧
    (0 < conf.ws_gates_size →
      w.gates_ ≠ none ∧ workspace_t.init_gates_strides conf = some w.gates_strides_) := by
  unfold workspace_t.ctor at h
  simp only [mst.clone, gt_iff_lt] at h
  refine ⟨?_, ?_, ?_⟩
  · simp only [Option.bind_eq_some, Option.map_eq_some'] at h
    obtain ⟨_, _, _, _, _, _, rfl⟩ := h
    rfl
  · intro hs
    simp only [hs, if_true, Option.bind_eq_some, Option.map_eq_some'] at h
    obtain ⟨_, _, ⟨_, ⟨st, hst, rfl⟩, _, _, rfl⟩⟩ := h
    exact ⟨by simp, hst⟩
  · intro hg
    simp only [hg, if_true, Option.bind_eq_some, Option.map_eq_some'] at h
    obtain ⟨_, ⟨st, hst, rfl⟩, _, _, _, _, rfl⟩ := h
    exact ⟨by simp, hst⟩

theorem n_b_tb_dtb_eq (conf : conf_t) (hd : 0 < conf.n_dir) (hi : 0 ≤ conf.n_iter)
    (hm : 0 < conf.mb) (ht : conf.n_dir * ((conf.n_iter + 1) * conf.mb) ≤ 2147483647) :
    workspace_t.n_b_tb_dtb conf =
      some (conf.mb, (conf.n_iter + 1) * conf.mb, conf.n_dir * ((conf.n_iter + 1) * conf.mb)) := by
  obtain ⟨p1, p2, p3⟩ := pos_mul_bounds (conf.n_iter + 1) conf.mb (by omega) hm
  obtain ⟨q1, q2, q3⟩ := pos_mul_bounds conf.n_dir ((conf.n_iter + 1) * conf.mb) hd p1
  have f1 : toInt32 conf.mb = conf.mb := toInt32_of_fits _ ⟨by omega, by omega⟩
  have f2 : fitsInt64 (conf.n_iter + 1) := ⟨by omega, by omega⟩
  have f3 : fitsInt64 ((conf.n_iter + 1) * conf.mb) := ⟨by omega, by omega⟩
  have f4 : toInt32 ((conf.n_iter + 1) * conf.mb) = (conf.n_iter + 1) * conf.mb :=
    toInt32_of_fits _ ⟨by omega, by omega⟩
  have f5 : fitsInt64 (conf.n_dir * ((conf.n_iter + 1) * conf.mb)) := ⟨by omega, by omega⟩
  have f6 : toInt32 (conf.n_dir * ((conf.n_iter + 1) * conf.mb)) =
      conf.n_dir * ((conf.n_iter + 1) * conf.mb) := toInt32_of_fits _ ⟨by omega, by omega⟩
  simp only [workspace_t.n_b_tb_dtb, add64, mul64, f1, chk64_of_fits _ f2, chk64_of_fits _ f3,
    f4, chk64_of_fits _ f5, f6, Option.some_bind, Option.map_some']

/-- The strides the constructor computes for a part with leading dimension `ld`. -/
theorem strides_eq (conf : conf_t) (ld : Int) (hd : 0 < conf.n_dir) (hi : 0 ≤ conf.n_iter)
    (hm : 0 < conf.mb) (hl : 0 < ld)
    (ht : conf.n_dir * ((conf.n_iter + 1) * conf.mb) * ld ≤ 2147483647) :
    workspace_t.n_b_tb_dtb conf =
      some (conf.mb, (conf.n_iter + 1) * conf.mb, conf.n_dir * ((conf.n_iter + 1) * conf.mb)) ∧
    mul64 (conf.n_dir * ((conf.n_iter + 1) * conf.mb)) ld =
      some (conf.n_dir * ((conf.n_iter + 1) * conf.mb) * ld) ∧
    mul64 ((conf.n_iter + 1) * conf.mb) ld = some ((conf.n_iter + 1) * conf.mb * ld) ∧
    mul64 conf.mb ld = some (conf.mb * ld) := by
  obtain ⟨p1, p2, p3⟩ := pos_mul_bounds (conf.n_iter + 1) conf.mb (by omega) hm
  obtain ⟨q1, q2, q3⟩ := pos_mul_bounds conf.n_dir ((conf.n_iter + 1) * conf.mb) hd p1
  obtain ⟨r1, r2, r3⟩ := pos_mul_bounds (conf.n_dir * ((conf.n_iter + 1) * conf.mb)) ld q1 hl
  obtain ⟨s1, s2, s3⟩ := pos_mul_bounds ((conf.n_iter + 1) * conf.mb) ld p1 hl
  obtain ⟨t1, t2, t3⟩ := pos_mul_bounds conf.mb ld hm hl
  have u1 : (conf.n_iter + 1) * conf.mb * ld ≤ conf.n_dir * ((conf.n_iter + 1) * conf.mb) * ld :=
    mul_le_mul_of_nonneg_right q3 hl.le
  have u2 : conf.mb * ld ≤ (conf.n_iter + 1) * conf.mb * ld :=
    mul_le_mul_of_nonneg_right p3 hl.le
  refine ⟨n_b_tb_dtb_eq conf hd hi hm (by omega), ?_, ?_, ?_⟩
  · exact chk64_of_fits _ ⟨by omega, by omega⟩
  · exact chk64_of_fits _ ⟨by omega, by omega⟩
  · exact chk64_of_fits _ ⟨by omega, by omega⟩

theorem init_states_strides_eq (conf : conf_t) (hd : 0 < conf.n_dir) (hi : 0 ≤ conf.n_iter)
    (hm : 0 < conf.mb) (hl : 0 < conf.states_ws_ld)
    (ht : conf.n_dir * ((conf.n_iter + 1) * conf.mb) * conf.states_ws_ld ≤ 2147483647) :
    workspace_t.init_states_strides conf =
      some ![conf.n_dir * ((conf.n_iter + 1) * conf.mb) * conf.states_ws_ld,
        (conf.n_iter + 1) * conf.mb * conf.states_ws_ld, conf.mb * conf.states_ws_ld, 1] := by
  obtain ⟨h1, h2, h3, h4⟩ := strides_eq conf conf.states_ws_ld hd hi hm hl ht
  simp only [workspace_t.init_states_strides, h1, h2, h3, h4, Option.some_bind,
    Option.map_some']

theorem init_gates_strides_eq (conf : conf_t) (hd : 0 < conf.n_dir) (hi : 0 ≤ conf.n_iter)
    (hm : 0 < conf.mb) (hl : 0 < conf.gates_ws_ld)
    (ht : conf.n_dir * ((conf.n_iter + 1) * conf.mb) * conf.gates_ws_ld ≤ 2147483647) :
    workspace_t.init_gates_strides conf =
      some ![conf.n_dir * ((conf.n_iter + 1) * conf.mb) * conf.gates_ws_ld,
        (conf.n_iter + 1) * conf.mb * conf.gates_ws_ld, conf.mb * conf.gates_ws_ld,
        conf.gates_ws_ld] := by
  obtain ⟨h1, h2, h3, h4⟩ := strides_eq conf conf.gates_ws_ld hd hi hm hl ht
  simp only [workspace_t.init_gates_strides, h1, h2, h3, h4, Option.some_bind,
    Option.map_some']

/-- The sum computed by `get_offset` when none of its partial results overflows. -/
theorem get_offset_eq (s d : Fin 4 → Int)
    (h0 : fitsInt64 (s 0 * d 0)) (h1 : fitsInt64 (s 1 * d 1)) (h2 : fitsInt64 (s 2 * d 2))
    (h3 : fitsInt64 (s 3 * d 3)) (k1 : fitsInt64 (s 0 * d 0 + s 1 * d 1))
    (k2 : fitsInt64 (s 0 * d 0 + s 1 * d 1 + s 2 * d 2))
    (k3 : fitsInt64 (s 0 * d 0 + s 1 * d 1 + s 2 * d 2 + s 3 * d 3)) :
    workspace_t.get_offset s d = some (s 0 * d 0 + s 1 * d 1 + s 2 * d 2 + s 3 * d 3) := by
  have e0 : s ⟨0, by omega⟩ * d ⟨0, by omega⟩ = s 0 * d 0 := rfl
  have e1 : s ⟨1, by omega⟩ * d ⟨1, by omega⟩ = s 1 * d 1 := rfl
  have e2 : s ⟨2, by omega⟩ * d ⟨2, by omega⟩ = s 2 * d 2 := rfl
  have e3 : s ⟨3, by omega⟩ * d ⟨3, by omega⟩ = s 3 * d 3 := rfl
  simp only [workspace_t.get_offset, workspace_t.get_offset_iter, Nat.lt_add_one,
    Nat.zero_lt_succ, Nat.one_lt_ofNat, Nat.reduceLT, dif_pos, mul64, add64, e0, e1, e2, e3,
    chk64_of_fits _ h0, chk64_of_fits _ h1, chk64_of_fits _ h2, chk64_of_fits _ h3, zero_add,
    chk64_of_fits _ k1, chk64_of_fits _ k2, chk64_of_fits _ k3, Option.some_bind]

theorem lin_index_four (A B M ld l0 l1 l2 l3 l4 : Int) :
    lin_index 4 ![A, B, M, ld] ![l0, l1, l2, l3, l4] 4 =
      (((l0 * A + l1) * B + l2) * M + l3) * ld + l4 := rfl

theorem dims_prod_four (A B M ld : Int) :
    dims_prod 4 ![A, B, M, ld] 4 = 1 * A * B * M * ld := rfl

theorem in_bounds_four (A B M ld l0 l1 l2 l3 l4 : Int) (h0 : 0 ≤ l0)
    (h1 : 0 ≤ l1 ∧ l1 < A) (h2 : 0 ≤ l2 ∧ l2 < B) (h3 : 0 ≤ l3 ∧ l3 < M)
    (h4 : 0 ≤ l4 ∧ l4 < ld) : in_bounds 4 ![A, B, M, ld] ![l0, l1, l2, l3, l4] := by
  refine ⟨h0, fun i => ?_⟩
  fin_cases i
  · exact ⟨lt_of_le_of_lt h1.1 h1.2, h1.1, h1.2⟩
  · exact ⟨lt_of_le_of_lt h2.1 h2.2, h2.1, h2.2⟩
  · exact ⟨lt_of_le_of_lt h3.1 h3.2, h3.1, h3.2⟩
  · exact ⟨lt_of_le_of_lt h4.1 h4.2, h4.1, h4.2⟩

/-- The cell `(l0, l1, l2, l3, 0)` of a row-major array with positive dimensions
`(K + 1) x A x B x M x ld` holding at most `2^31 - 1` elements: its linear index, the
partial sums of its strided form and their bounds. -/
theorem cell_bounds (K A B M ld l0 l1 l2 l3 : Int) (h0 : 0 ≤ l0 ∧ l0 ≤ K)
    (h1 : 0 ≤ l1 ∧ l1 < A) (h2 : 0 ≤ l2 ∧ l2 < B) (h3 : 0 ≤ l3 ∧ l3 < M) (hl : 0 < ld)
    (ht : (K + 1) * A * B * M * ld ≤ 2147483647) :
    B ≤ 2147483647 ∧ A * (B * M) * ld ≤ 2147483647 ∧
    0 ≤ A * (B * M) * ld * l0 ∧ 0 ≤ B * M * ld * l1 ∧ 0 ≤ M * ld * l2 ∧ 0 ≤ ld * l3 ∧
    A * (B * M) * ld * l0 + B * M * ld * l1 + M * ld * l2 + ld * l3 =
      (((l0 * A + l1) * B + l2) * M + l3) * ld + 0 ∧
    (((l0 * A + l1) * B + l2) * M + l3) * ld + 0 ≤ 2147483647 := by
  have hA : 0 < A := by omega
  have hB : 0 < B := by omega
  have hM : 0 < M := by omega
  have hBM := mul_pos hB hM
  have hP : 0 < A * (B * M) * ld := mul_pos (mul_pos hA hBM) hl
  have hb := lin_index_bounds 4 ![A, B, M, ld] ![l0, l1, l2, l3, 0]
    (in_bounds_four A B M ld l0 l1 l2 l3 0 h0.1 h1 h2 h3 ⟨le_rfl, hl⟩) 4
  rw [lin_index_four, dims_prod_four] at hb
  have e0 : (![l0, l1, l2, l3, 0] : Fin 5 → Int) 0 = l0 := rfl
  rw [e0] at hb
  have hle : (l0 + 1) * (A * (B * M) * ld) ≤ (K + 1) * (A * (B * M) * ld) :=
    mul_le_mul_of_nonneg_right (by omega) hP.le
  have r1 : (l0 + 1) * (1 * A * B * M * ld) = (l0 + 1) * (A * (B * M) * ld) := by ring
  have r2 : (K + 1) * A * B * M * ld = (K + 1) * (A * (B * M) * ld) := by ring
  have r3 : (K + 1) * (A * (B * M) * ld) = K * (A * (B * M) * ld) + A * (B * M) * ld := by ring
  have hK : 0 ≤ K * (A * (B * M) * ld) := mul_nonneg (by omega) hP.le
  obtain ⟨-, p2, -⟩ := pos_mul_bounds B M hB hM
  obtain ⟨-, -, p3⟩ := pos_mul_bounds A (B * M) hA hBM
  obtain ⟨-, p4, -⟩ := pos_mul_bounds (A * (B * M)) ld (mul_pos hA hBM) hl
  refine ⟨by omega, by omega, mul_nonneg hP.le h0.1, mul_nonneg (mul_pos hBM hl).le h1.1,
    mul_nonneg (mul_pos hM hl).le h2.1, mul_nonneg hl.le h3.1, by ring, by omega⟩

theorem chk64_eq_some (x y : Int) (h : chk64 x = some y) : y = x ∧ fitsInt64 x := by
  unfold chk64 at h
  split at h
  · exact ⟨(Option.some.inj h).symm, by assumption⟩
  · exact absurd h (by simp)

theorem get_offset_some (s d : Fin 4 → Int) (o : Int) (h : workspace_t.get_offset s d = some o) :
    o = s 0 * d 0 + s 1 * d 1 + s 2 * d 2 + s 3 * d 3 := by
  have e0 : s ⟨0, by omega⟩ * d ⟨0, by omega⟩ = s 0 * d 0 := rfl
  have e1 : s ⟨1, by omega⟩ * d ⟨1, by omega⟩ = s 1 * d 1 := rfl
  have e2 : s ⟨2, by omega⟩ * d ⟨2, by omega⟩ = s 2 * d 2 := rfl
  have e3 : s ⟨3, by omega⟩ * d ⟨3, by omega⟩ = s 3 * d 3 := rfl
  simp only [workspace_t.get_offset, workspace_t.get_offset_iter, Nat.lt_add_one,
    Nat.zero_lt_succ, Nat.one_lt_ofNat, Nat.reduceLT, dif_pos, mul64, add64, e0, e1, e2, e3,
    Option.some_bind, Option.bind_eq_some] at h
  obtain ⟨a3, ⟨a2, ⟨a1, ⟨p0, hp0, ha1⟩, p1, hp1, ha2⟩, p2, hp2, ha3⟩, p3, hp3, ho⟩ := h
  obtain ⟨rfl, -⟩ := chk64_eq_some _ _ hp0
  obtain ⟨rfl, -⟩ := chk64_eq_some _ _ hp1
  obtain ⟨rfl, -⟩ := chk64_eq_some _ _ hp2
  obtain ⟨rfl, -⟩ := chk64_eq_some _ _ hp3
  obtain ⟨rfl, -⟩ := chk64_eq_some _ _ ha1
  obtain ⟨rfl, -⟩ := chk64_eq_some _ _ ha2
  obtain ⟨rfl, -⟩ := chk64_eq_some _ _ ha3
  obtain ⟨rfl, -⟩ := chk64_eq_some _ _ ho
  ring

end rnn_utils

end dnnl

namespace gemmstone

/-! ### `alignmentForLD` -/

theorem natCast_div_mod (n k : Nat) : ((n : Int) / 2 ^ k % 2 = 1) ↔ (n / 2 ^ k % 2 = 1) := by
  have : ((n / 2 ^ k % 2 : Nat) : Int) = (n : Int) / 2 ^ k % 2 := by push_cast; rfl
  rw [← this]
  omega

theorem land_two_pow (ld : Int) (k : Nat) :
    Int.land ld ((2 ^ k : Nat) : Int) = if ld / 2 ^ k % 2 = 1 then 2 ^ k else 0 := by
  cases ld with
  | ofNat n =>
    have h1 : Int.land (Int.ofNat n) ((2 ^ k : Nat) : Int) = ((n &&& 2 ^ k : Nat) : Int) := rfl
    rw [h1, Nat.and_two_pow, Nat.testBit_to_div_mod]
    have := natCast_div_mod n k
    by_cases h : n / 2 ^ k % 2 = 1
    · have h' := this.mpr h
      simp only [Int.ofNat_eq_coe, h', h, decide_True, Bool.toNat_true, one_mul, if_true]
      push_cast
      rfl
    · have h' : ¬ ((n : Int) / 2 ^ k % 2 = 1) := fun hh => h (this.mp hh)
      simp only [Int.ofNat_eq_coe, h', h, decide_False, Bool.toNat_false, zero_mul, if_false]
      rfl
  | negSucc n =>
    have h1 : Int.land (Int.negSucc n) ((2 ^ k : Nat) : Int) =
        ((Nat.ldiff (2 ^ k) n : Nat) : Int) := rfl
    have h2 : Nat.ldiff (2 ^ k) n = if n / 2 ^ k % 2 = 1 then 0 else 2 ^ k := by
      apply Nat.eq_of_testBit_eq
      intro j
      rw [Nat.testBit_ldiff, Nat.testBit_two_pow]
      by_cases hn : n / 2 ^ k % 2 = 1
      · simp only [hn, if_true, Nat.zero_testBit]
        by_cases hkj : k = j
        · subst hkj
          simp [Nat.testBit_to_div_mod, hn]
        · simp [hkj]
      · simp only [hn, if_false, Nat.testBit_two_pow]
        by_cases hkj : k = j
        · subst hkj
          simp [Nat.testBit_to_div_mod, hn]
        · simp [hkj]
    have h3 : Int.negSucc n / 2 ^ k = -((n : Int) / 2 ^ k + 1) := by
      have := Int.negSucc_ediv n (show (0 : Int) < 2 ^ k by positivity)
      simpa using this
    have := natCast_div_mod n k
    rw [h1, h2, h3]
    by_cases hn : n / 2 ^ k % 2 = 1
    · have hn' := this.mpr hn
      have : ¬ (-((n : Int) / 2 ^ k + 1) % 2 = 1) := by omega
      rw [if_pos hn, if_neg this]
      rfl
    · have hn' : ¬ ((n : Int) / 2 ^ k % 2 = 1) := fun hh => hn (this.mp hh)
      have : -((n : Int) / 2 ^ k + 1) % 2 = 1 := by omega
      rw [if_neg hn, if_pos this]
      push_cast
      rfl


/-- One test of the loop at `x = 2^k`, `k <= 6`: bit `k` of `ld` decides. -/
theorem alignmentForLD_loop_step (fuel : Nat) (ld : Int) (k : Nat) (hk : k ≤ 6) :
    alignmentForLD_loop (fuel + 1) ld (2 ^ k) =
      if ld / 2 ^ k % 2 = 1 then some (2 ^ k) else alignmentForLD_loop fuel ld (2 ^ (k + 1)) := by
  have hle : (2 : Int) ^ k ≤ 64 := by
    have : (2 : Int) ^ k ≤ 2 ^ 6 := pow_le_pow_right₀ (by norm_num) hk
    simpa using this
  have hpos : (2 : Int) ^ k ≠ 0 := by positivity
  have hland := land_two_pow ld k
  rw [show (((2 ^ k : Nat) : Int)) = (2 : Int) ^ k by push_cast; rfl] at hland
  rw [alignmentForLD_loop, if_pos hle, hland, pow_succ]
  by_cases h : ld / 2 ^ k % 2 = 1
  · simp only [h, if_true, ne_eq, hpos, not_false_eq_true]
  · simp only [h, if_false, ne_eq, not_true_eq_false]

theorem alignmentForLD_loop_end (fuel : Nat) (ld : Int) :
    alignmentForLD_loop (fuel + 1) ld (2 ^ 7) = some 128 := by
  rw [alignmentForLD_loop, if_neg (by norm_num)]

/-- The value returned by `alignmentForLD` together with the residue of `ld` that selects
it. -/
theorem alignmentForLD_cases (ld : Int) :
    ∃ a : Int, alignmentForLD ld = some a ∧
      ((a = 1 ∧ ld % 2 = 1) ∨ (a = 2 ∧ ld % 4 = 2) ∨ (a = 4 ∧ ld % 8 = 4) ∨
        (a = 8 ∧ ld % 16 = 8) ∨ (a = 16 ∧ ld % 32 = 16) ∨ (a = 32 ∧ ld % 64 = 32) ∨
        (a = 64 ∧ ld % 128 = 64) ∨ (a = 128 ∧ ld % 128 = 0)) := by
  have e : alignmentForLD ld = alignmentForLD_loop 8 ld (2 ^ 0) := rfl
  rw [e, alignmentForLD_loop_step 7 ld 0 (by omega)]
  by_cases h0 : ld / 2 ^ 0 % 2 = 1
  · rw [if_pos h0]
    exact ⟨1, rfl, Or.inl ⟨rfl, by omega⟩⟩
  rw [if_neg h0, alignmentForLD_loop_step 6 ld 1 (by omega)]
  by_cases h1 : ld / 2 ^ 1 % 2 = 1
  · rw [if_pos h1]
    exact ⟨2, rfl, Or.inr (Or.inl ⟨rfl, by omega⟩)⟩
  rw [if_neg h1, alignmentForLD_loop_step 5 ld 2 (by omega)]
  by_cases h2 : ld / 2 ^ 2 % 2 = 1
  · rw [if_pos h2]
    exact ⟨4, rfl, Or.inr (Or.inr (Or.inl ⟨rfl, by omega⟩))⟩
  rw [if_neg h2, alignmentForLD_loop_step 4 ld 3 (by omega)]
  by_cases h3 : ld / 2 ^ 3 % 2 = 1
  · rw [if_pos h3]
    exact ⟨8, rfl, Or.inr (Or.inr (Or.inr (Or.inl ⟨rfl, by omega⟩)))⟩
  rw [if_neg h3, alignmentForLD_loop_step 3 ld 4 (by omega)]
  by_cases h4 : ld / 2 ^ 4 % 2 = 1
  · rw [if_pos h4]
    exact ⟨16, rfl, Or.inr (Or.inr (Or.inr (Or.inr (Or.inl ⟨rfl, by omega⟩))))⟩
  rw [if_neg h4, alignmentForLD_loop_step 2 ld 5 (by omega)]
  by_cases h5 : ld / 2 ^ 5 % 2 = 1
  · rw [if_pos h5]
    exact ⟨32, rfl, Or.inr (Or.inr (Or.inr (Or.inr (Or.inr (Or.inl ⟨rfl, by omega⟩)))))⟩
  rw [if_neg h5, alignmentForLD_loop_step 1 ld 6 (by omega)]
  by_cases h6 : ld / 2 ^ 6 % 2 = 1
  · rw [if_pos h6]
    exact ⟨64, rfl, Or.inr (Or.inr (Or.inr (Or.inr (Or.inr (Or.inr (Or.inl ⟨rfl, by omega⟩))))))⟩
  rw [if_neg h6, alignmentForLD_loop_end 0 ld]
  exact ⟨128, rfl,
    Or.inr (Or.inr (Or.inr (Or.inr (Or.inr (Or.inr (Or.inr ⟨rfl, by omega⟩))))))⟩

/-! ### Selection: ranking -/

theorem pickBest_eq_none (score : GEMMStrategy → Int) (l : List GEMMStrategy) :
    pickBest score l = none ↔ l = [] := by
  cases l with
  | nil => simp [pickBest]
  | cons s rest =>
    simp only [pickBest, reduceCtorEq, iff_false]
    cases pickBest score rest with
    | none => simp
    | some b => by_cases h : score s < score b <;> simp [h]

theorem pickBest_mem (score : GEMMStrategy → Int) (l : List GEMMStrategy) (b : GEMMStrategy)
    (h : pickBest score l = some b) : b ∈ l := by
  induction l generalizing b with
  | nil => simp [pickBest] at h
  | cons s rest ih =>
    simp only [pickBest] at h
    cases hr : pickBest score rest with
    | none =>
      simp only [hr, Option.some.injEq] at h
      simp [h]
    | some c =>
      simp only [hr] at h
      by_cases hlt : score s < score c
      · simp only [hlt, if_true, Option.some.injEq] at h
        exact List.mem_cons_of_mem _ (h ▸ ih c hr)
      · simp only [hlt, if_false, Option.some.injEq] at h
        simp [h]

/-- The candidate returned by `pickBest` is the winner of 4.3. -/
theorem pickBest_isWinner (score : GEMMStrategy → Int) (l : List GEMMStrategy)
    (b : GEMMStrategy) (h : pickBest score l = some b) : ∃ i, IsWinner score l i b := by
  induction l generalizing b with
  | nil => simp [pickBest] at h
  | cons s rest ih =>
    simp only [pickBest] at h
    cases hr : pickBest score rest with
    | none =>
      simp only [hr, Option.some.injEq] at h
      subst h
      have hnil := (pickBest_eq_none score rest).mp hr
      subst hnil
      refine ⟨0, by simp, ?_, ?_⟩
      · intro j c hc
        cases j with
        | zero => simp at hc; simp [hc]
        | succ j => simp at hc
      · intro j c hj
        omega
    | some c =>
      simp only [hr] at h
      obtain ⟨i, hi, hmax, hearlier⟩ := ih c hr
      by_cases hlt : score s < score c
      · simp only [hlt, if_true, Option.some.injEq] at h
        subst h
        refine ⟨i + 1, by simpa using hi, ?_, ?_⟩
        · intro j d hd
          cases j with
          | zero =>
            simp at hd
            subst hd
            exact hlt.le
          | succ j => exact hmax j d (by simpa using hd)
        · intro j d hj hd
          cases j with
          | zero =>
            simp at hd
            subst hd
            exact hlt
          | succ j => exact hearlier j d (by omega) (by simpa using hd)
      · simp only [hlt, if_false, Option.some.injEq] at h
        subst h
        refine ⟨0, by simp, ?_, ?_⟩
        · intro j d hd
          cases j with
          | zero => simp at hd; simp [hd]
          | succ j =>
            have := hmax j d (by simpa using hd)
            omega
        · intro j d hj
          omega

/-- The winner of 4.3 is unique: the tie-break leaves no choice. -/
theorem isWinner_unique (score : GEMMStrategy → Int) (l : List GEMMStrategy) (i i' : Nat)
    (b b' : GEMMStrategy) (h : IsWinner score l i b) (h' : IsWinner score l i' b') :
    i = i' ∧ b = b' := by
  obtain ⟨hi, hmax, hearlier⟩ := h
  obtain ⟨hi', hmax', hearlier'⟩ := h'
  have hii : i = i' := by
    rcases Nat.lt_trichotomy i i' with hlt | heq | hgt
    · have h1 := hearlier' i b hlt hi
      have h2 := hmax i' b' hi'
      omega
    · exact heq
    · have h1 := hearlier i' b' hgt hi'
      have h2 := hmax' i b hi
      omega
  subst hii
  rw [hi] at hi'
  exact ⟨rfl, Option.some.inj hi'⟩

theorem isWinner_pickBest (score : GEMMStrategy → Int) (l : List GEMMStrategy) (i : Nat)
    (b : GEMMStrategy) (h : IsWinner score l i b) : pickBest score l = some b := by
  cases hp : pickBest score l with
  | none =>
    have := (pickBest_eq_none score l).mp hp
    subst this
    simp [IsWinner] at h
  | some c =>
    obtain ⟨j, hj⟩ := pickBest_isWinner score l c hp
    rw [(isWinner_unique score l j i c b hj h).2]

theorem mem_requirementFilter (E : Engine) (reqs : List StrategyRequirement)
    (cands : List GEMMStrategy) (s : GEMMStrategy) :
    s ∈ requirementFilter E reqs cands ↔
      s ∈ cands ∧ ∀ r ∈ reqs, E.satisfies s r = true := by
  simp [requirementFilter, List.mem_filter, List.all_eq_true]

theorem buildPackage_ok (E : Engine) (protocol : GEMMProtocol) (hwInfo : HWInformation)
    (s : GEMMStrategy) (pkg : Package) (h : buildPackage E protocol hwInfo s = Except.ok pkg) :
    pkg.strategy = s ∧ pkg.protocol = protocol ∧ pkg.resourceUsage = E.resourceUsage s := by
  unfold buildPackage at h
  split at h
  · cases h
    exact ⟨rfl, rfl, rfl⟩
  · cases h

/-- The function `selectGEMMMicrokernel` returns exactly the outcomes `Selects` allows. -/
theorem select_ok_iff (E : Engine) (protocol : GEMMProtocol) (hwInfo : HWInformation)
    (sizes : SizeParams) (problem : GEMMProblem) (reqs : List StrategyRequirement)
    (adj : Option (GEMMStrategy → GEMMStrategy)) (pkg : Package) :
    selectGEMMMicrokernel E protocol hwInfo sizes problem reqs adj = Except.ok pkg ↔
      Selects E protocol hwInfo sizes problem reqs adj pkg := by
  unfold selectGEMMMicrokernel Selects
  by_cases hrec : reqs.all E.recognised = true
  · have hall : ∀ r ∈ reqs, E.recognised r = true := by simpa [List.all_eq_true] using hrec
    simp only [hrec, if_true]
    constructor
    · intro h
      cases hp : pickBest (E.score hwInfo sizes problem)
          (requirementFilter E reqs (E.enumerate hwInfo problem)) with
      | none => simp [hp] at h
      | some best =>
        simp only [hp] at h
        obtain ⟨i, hi⟩ := pickBest_isWinner _ _ _ hp
        exact ⟨hall, i, best, hi, h⟩
    · rintro ⟨-, i, best, hi, hb⟩
      simp only [isWinner_pickBest _ _ _ _ hi, hb]
  · have hnot : ¬ ∀ r ∈ reqs, E.recognised r = true := by
      simpa [List.all_eq_true] using hrec
    simp only [hrec, Bool.false_eq_true, if_false, reduceCtorEq, false_iff]
    exact fun h => hnot h.1

end gemmstone

namespace dnnl

/-! ## C1 -/

/-- C1: for every `N`, bounds `Ds` and index tuple `Is`, provided no signed 64-bit
intermediate overflows, `calc_offset<N>(Ds, Is)` returns the row-major linear index
reduced modulo `2^32` into the range of `int` (the result lies in that range and is
congruent to the index); in particular it returns the linear index itself whenever that
index fits in an `int`. -/
theorem calc_offset_eq_lin_index_mod (N : Nat) (Ds : Fin N → Int) (Is : Fin (N + 1) → Int)
    (h : no_overflow64 N Ds Is N) :
    ∃ r : Int, calc_offset N Ds Is = some r ∧ fitsInt32 r ∧
      r % 4294967296 = lin_index N Ds Is N % 4294967296 ∧
      (fitsInt32 (lin_index N Ds Is N) → r = lin_index N Ds Is N) :=
  ⟨toInt32 (lin_index N Ds Is N), calc_offset_iter_eq N Ds Is N h, toInt32_fits _,
    toInt32_emod _, toInt32_of_fits _⟩

/-- C1 at `N = 4`, bounds `{2, 3, 4, 5}` and indices `{1, 1, 2, 3, 4}`. -/
theorem calc_offset_eq_lin_index_mod_witness :
    no_overflow64 4 ![2, 3, 4, 5] ![1, 1, 2, 3, 4] 4 ∧
    ∃ r : Int, calc_offset 4 ![2, 3, 4, 5] ![1, 1, 2, 3, 4] = some r ∧ fitsInt32 r ∧
      r % 4294967296 = lin_index 4 ![2, 3, 4, 5] ![1, 1, 2, 3, 4] 4 % 4294967296 ∧
      (fitsInt32 (lin_index 4 ![2, 3, 4, 5] ![1, 1, 2, 3, 4] 4) →
        r = lin_index 4 ![2, 3, 4, 5] ![1, 1, 2, 3, 4] 4) :=
  ⟨by decide, calc_offset_eq_lin_index_mod 4 ![2, 3, 4, 5] ![1, 1, 2, 3, 4] (by decide)⟩

end dnnl

namespace dnnl.rnn_utils

/-! ## C2 -/

/-- C2, as stated, fails: in the workspace built from `conf_small` (4-byte state elements)
`calc_off_ws_state(0, 0, 1, 0, 0)` returns 12, the linear index of the element, whereas
the byte offset of that element (linear index times `ws_states_elsz`) is 48. -/
theorem calc_off_ws_state_not_bytes :
    workspace_t.ctor ws_sample conf_small = some workspace_small ∧
    workspace_small.calc_off_ws_state 0 0 1 0 0 = some 12 ∧
    lin_index 4 ![conf_small.n_dir, conf_small.n_iter + 1, conf_small.mb,
      conf_small.states_ws_ld] ![0, 0, 1, 0, 0] 4 * conf_small.ws_states_elsz = 48 ∧
    workspace_small.calc_off_ws_state 0 0 1 0 0 ≠
      some (lin_index 4 ![conf_small.n_dir, conf_small.n_iter + 1, conf_small.mb,
        conf_small.states_ws_ld] ![0, 0, 1, 0, 0] 4 * conf_small.ws_states_elsz) :=
  ⟨by rfl, by decide, by decide, by decide⟩

/-- C2, amended: `calc_off_ws_state` and `calc_off_diff_state` return the linear index of
the addressed element counted in elements (reduced to `int` by `calc_offset`), not
scaled by any element size; the byte offset is formed by the callers, `states_range`
passing `calc_off_ws_state(...) * ws_states_elsz` and `diff_states` passing
`calc_off_diff_state(...) * aux_elsz` to `clone_ptr_off`. -/
theorem calc_off_element_index (type_size : Nat → Int) (get_storage : Option mst → mst)
    (w : workspace_t) (s : scratch_t) (i0 i1 i2 i3 i4 i5 : Int) :
    (0 ≤ i0 → fitsInt64 (w.conf_.n_iter + 1) →
      no_overflow64 4 ![w.conf_.n_dir, w.conf_.n_iter + 1, w.conf_.mb, w.conf_.states_ws_ld]
        ![i0, i1, i2, i3, i4] 4 →
      w.calc_off_ws_state i0 i1 i2 i3 i4 =
        some (toInt32 (lin_index 4
          ![w.conf_.n_dir, w.conf_.n_iter + 1, w.conf_.mb, w.conf_.states_ws_ld]
          ![i0, i1, i2, i3, i4] 4))) ∧
    (∀ r e1 e2 e3 : Int, w.calc_off_ws_state i0 i1 i2 0 0 = some r →
      fitsInt64 (r * w.conf_.ws_states_elsz) →
      w.states_range get_storage i0 e1 i1 e2 i2 e3 =
        some (sub_storage.clone_ptr_off (get_storage w.states_)
          (r * w.conf_.ws_states_elsz))) ∧
    (fitsInt64 (s.conf_.n_iter + 1) → fitsInt64 (s.conf_.n_states + 1) →
      no_overflow64 5 ![s.conf_.n_dir, s.conf_.n_iter + 1, s.conf_.n_states + 1, s.conf_.mb,
        s.conf_.scratch_diff_states_ld] ![i0, i1, i2, i3, i4, i5] 5 →
      s.calc_off_diff_state i0 i1 i2 i3 i4 i5 =
        some (toInt32 (lin_index 5
          ![s.conf_.n_dir, s.conf_.n_iter + 1, s.conf_.n_states + 1, s.conf_.mb,
            s.conf_.scratch_diff_states_ld] ![i0, i1, i2, i3, i4, i5] 5))) ∧
    (∀ r : Int, s.calc_off_diff_state i0 i1 i2 i3 0 0 = some r → s.diff_states_ ≠ none →
      s.diff_states type_size get_storage i0 i1 i2 i3 =
        some (sub_storage.clone_ptr_off (get_storage s.diff_states_)
          (r * toInt32 (type_size s.conf_.aux_data_type)))) := by
  refine ⟨?_, ?_, ?_, ?_⟩
  · intro h0 hn hov
    simp only [workspace_t.calc_off_ws_state, ge_iff_le, h0, if_true, add64,
      chk64_of_fits _ hn, Option.some_bind]
    exact calc_offset_iter_eq _ _ _ _ hov
  · intro r e1 e2 e3 hr hf
    simp only [workspace_t.states_range, hr, Option.some_bind, mul64, chk64_of_fits _ hf,
      Option.map_some']
  · intro hn hs hov
    simp only [scratch_t.calc_off_diff_state, add64, chk64_of_fits _ hn, chk64_of_fits _ hs,
      Option.some_bind]
    exact calc_offset_iter_eq _ _ _ _ hov
  · intro r hr hd
    have hfit : fitsInt64 (r * toInt32 (type_size s.conf_.aux_data_type)) := by
      apply fitsInt64_mul_of_fitsInt32 _ _ _ (toInt32_fits _)
      simp only [scratch_t.calc_off_diff_state, Option.bind_eq_some] at hr
      obtain ⟨_, _, _, _, hr⟩ := hr
      exact calc_offset_iter_fits _ _ _ _ _ hr
    cases hds : s.diff_states_ with
    | none => exact absurd hds hd
    | some d =>
      simp only [scratch_t.diff_states, hds, hr, Option.some_bind, mul64,
        chk64_of_fits _ hfit, Option.map_some']

/-- C2, amended, at `conf_small`: the state cell `(1, 1, 2)` has element index 168 and
`states_range` addresses byte `168 * 4`; the diff-state cell `(1, 1, 2, 1)` has element
index 348 and `diff_states` addresses byte `348 * 4`. -/
theorem calc_off_element_index_witness :
    workspace_small.calc_off_ws_state 1 1 2 0 0 = some 168 ∧
    workspace_small.states_range get_storage_sample 1 2 1 2 2 3 =
      some (sub_storage.clone_ptr_off (get_storage_sample workspace_small.states_) (168 * 4)) ∧
    scratch_small.calc_off_diff_state 1 1 2 1 0 0 = some 348 ∧
    scratch_small.diff_states type_size_sample get_storage_sample 1 1 2 1 =
      some (sub_storage.clone_ptr_off (get_storage_sample scratch_small.diff_states_)
        (348 * 4)) :=
  ⟨(calc_off_element_index type_size_sample get_storage_sample workspace_small scratch_small
      1 1 2 0 0 0).1 (by decide) (by decide) (by decide),
   (calc_off_element_index type_size_sample get_storage_sample workspace_small scratch_small
      1 1 2 0 0 0).2.1 168 2 2 3 (by decide) (by decide),
   (calc_off_element_index type_size_sample get_storage_sample workspace_small scratch_small
      1 1 2 1 0 0).2.2.1 (by decide) (by decide) (by decide),
   (calc_off_element_index type_size_sample get_storage_sample workspace_small scratch_small
      1 1 2 1 0 0).2.2.2 348 (by decide) (by decide)⟩

end dnnl.rnn_utils

namespace dnnl.rnn_utils

/-! ## C3 -/

/-- C3, as stated, fails for an index outside the workspace.  In `conf_wide` (all
dimensions non-negative, `2^30` elements in total) the strided offset of
`(layer, dir, time) = (2, 0, 0)` is `2^31`, while `calc_off_ws_state(2, 0, 0, 0, 0)` is
`-2^31`, so `states` and `states_range` address different bytes.  It also fails with an
empty minibatch: in `conf_flat` the strided offset of `(3, 0, 0)` is 0 while
`calc_off_ws_state` overflows `dim_t`. -/
theorem states_offsets_differ :
    workspace_t.ctor ws_sample conf_wide = some workspace_wide ∧
    (0 < conf_wide.ws_states_size ∧ 0 ≤ conf_wide.n_dir ∧ 0 ≤ conf_wide.n_iter ∧
      0 ≤ conf_wide.mb ∧ 0 ≤ conf_wide.states_ws_ld ∧
      fitsInt32 ((conf_wide.n_layer + 1) * conf_wide.n_dir * (conf_wide.n_iter + 1) *
        conf_wide.mb * conf_wide.states_ws_ld)) ∧
    workspace_t.get_offset workspace_wide.states_strides ![2, 0, 0, 0] = some 2147483648 ∧
    workspace_wide.calc_off_ws_state 2 0 0 0 0 = some (-2147483648) ∧
    workspace_wide.states get_storage_sample 2 0 0 ≠
      workspace_wide.states_range get_storage_sample 2 2 0 0 0 0 ∧
    workspace_t.ctor ws_sample conf_flat = some workspace_flat ∧
    (0 < conf_flat.ws_states_size ∧ 0 ≤ conf_flat.n_dir ∧ 0 ≤ conf_flat.n_iter ∧
      0 ≤ conf_flat.mb ∧ 0 ≤ conf_flat.states_ws_ld ∧
      fitsInt32 ((conf_flat.n_layer + 1) * conf_flat.n_dir * (conf_flat.n_iter + 1) *
        conf_flat.mb * conf_flat.states_ws_ld)) ∧
    workspace_t.get_offset workspace_flat.states_strides ![3, 0, 0, 0] = some 0 ∧
    workspace_flat.calc_off_ws_state 3 0 0 0 0 = none :=
  ⟨by rfl, by decide, by decide, by decide, by decide, by rfl, by decide, by decide, by decide⟩

/-- C3, amended: for a workspace built by the constructor from a `conf_t` with
`ws_states_size > 0`, positive `n_dir`, `mb`, `states_ws_ld`, non-negative `n_iter`, and
whose element count `(n_layer + 1) * n_dir * (n_iter + 1) * mb * states_ws_ld` fits in an
`int`, and for every cell inside it (`0 <= layer <= n_layer`, `0 <= dir < n_dir`,
`0 <= time <= n_iter`), `get_offset(states_strides(), {layer, dir, time, 0})` and
`calc_off_ws_state(layer, dir, time, 0, 0)` return the same value; hence `states` and
`states_range` hand back the same view, whatever the three end arguments. -/
theorem states_offsets_agree (get_storage : Option mst → mst) (ws : mst) (conf : conf_t)
    (w : workspace_t) (layer dir time e1 e2 e3 : Int)
    (hw : workspace_t.ctor ws conf = some w) (hsz : 0 < conf.ws_states_size)
    (hiter : 0 ≤ conf.n_iter) (hmb : 0 < conf.mb) (hld : 0 < conf.states_ws_ld)
    (hlayer : 0 ≤ layer ∧ layer ≤ conf.n_layer) (hdir : 0 ≤ dir ∧ dir < conf.n_dir)
    (htime : 0 ≤ time ∧ time ≤ conf.n_iter)
    (htot : (conf.n_layer + 1) * conf.n_dir * (conf.n_iter + 1) * conf.mb * conf.states_ws_ld
      ≤ 2147483647) :
    ∃ o : Int,
      workspace_t.get_offset w.states_strides ![layer, dir, time, 0] = some o ∧
      w.calc_off_ws_state layer dir time 0 0 = some o ∧
      o = ((layer * conf.n_dir + dir) * (conf.n_iter + 1) + time) * conf.mb
        * conf.states_ws_ld ∧
      w.states get_storage layer dir time =
        w.states_range get_storage layer e1 dir e2 time e3 ∧
      (fitsInt64 (o * conf.ws_states_elsz) →
        w.states_range get_storage layer e1 dir e2 time e3 =
          some (sub_storage.clone_ptr_off (get_storage w.states_)
            (o * conf.ws_states_elsz))) := by
  obtain ⟨hc, hs, -⟩ := ctor_eq_some ws conf w hw
  subst hc
  obtain ⟨hne, hst⟩ := hs hsz
  obtain ⟨c0, c1, c2, c3, c4, -, c6, c7⟩ := cell_bounds w.conf_.n_layer w.conf_.n_dir
    (w.conf_.n_iter + 1) w.conf_.mb w.conf_.states_ws_ld layer dir time 0 hlayer hdir
    ⟨htime.1, by omega⟩ ⟨le_rfl, hmb⟩ hld htot
  rw [init_states_strides_eq w.conf_ (by omega) hiter hmb hld c1, Option.some.injEq] at hst
  have hget : workspace_t.get_offset w.states_strides ![layer, dir, time, 0] =
      some ((((layer * w.conf_.n_dir + dir) * (w.conf_.n_iter + 1) + time) * w.conf_.mb + 0)
        * w.conf_.states_ws_ld + 0) := by
    rw [← c6, workspace_t.states_strides, ← hst]
    have hz : w.conf_.states_ws_ld * 0 = (1 : Int) * 0 := by ring
    rw [hz]
    refine get_offset_eq _ _ ?_ ?_ ?_ ?_ ?_ ?_ ?_ <;>
      simp only [Matrix.cons_val_zero, Matrix.cons_val_one, Matrix.head_cons,
        Matrix.cons_val_two, Matrix.tail_cons, Matrix.cons_val_three] <;>
      unfold fitsInt64 <;> omega
  have hcalc : w.calc_off_ws_state layer dir time 0 0 =
      some ((((layer * w.conf_.n_dir + dir) * (w.conf_.n_iter + 1) + time) * w.conf_.mb + 0)
        * w.conf_.states_ws_ld + 0) := by
    have hf : fitsInt64 (w.conf_.n_iter + 1) := ⟨by omega, by omega⟩
    simp only [workspace_t.calc_off_ws_state, ge_iff_le, hlayer.1, if_true, add64,
      chk64_of_fits _ hf, Option.some_bind]
    rw [← lin_index_four]
    apply calc_offset_of_in_bounds
    · exact in_bounds_four _ _ _ _ _ _ _ _ _ hlayer.1 hdir ⟨htime.1, by omega⟩ ⟨le_rfl, hmb⟩
        ⟨le_rfl, hld⟩
    · rw [lin_index_four]
      have := mul_nonneg (mul_nonneg (mul_nonneg (mul_nonneg hlayer.1 (by omega : (0:Int) ≤ w.conf_.n_dir)) hiter) hmb.le) hld.le
      unfold fitsInt32
      omega
  refine ⟨_, hget, hcalc, by ring, ?_, ?_⟩
  · cases hs' : w.states_ with
    | none => exact absurd hs' hne
    | some s0 =>
      simp only [workspace_t.states, workspace_t.states_range, hs', hget, hcalc]
  · intro hf
    have hf' : fitsInt64 (((((layer * w.conf_.n_dir + dir) * (w.conf_.n_iter + 1) + time)
        * w.conf_.mb + 0) * w.conf_.states_ws_ld + 0) * w.conf_.ws_states_elsz) := hf
    simp only [workspace_t.states_range, hcalc, Option.some_bind, mul64, chk64_of_fits _ hf',
      Option.map_some']

/-- C3, amended, at `conf_small` and the cell `(1, 1, 2)`. -/
theorem states_offsets_agree_witness :
    ∃ o : Int,
      workspace_t.get_offset workspace_small.states_strides ![1, 1, 2, 0] = some o ∧
      workspace_small.calc_off_ws_state 1 1 2 0 0 = some o ∧
      o = ((1 * conf_small.n_dir + 1) * (conf_small.n_iter + 1) + 2) * conf_small.mb
        * conf_small.states_ws_ld ∧
      workspace_small.states get_storage_sample 1 1 2 =
        workspace_small.states_range get_storage_sample 1 2 1 2 2 3 ∧
      (fitsInt64 (o * conf_small.ws_states_elsz) →
        workspace_small.states_range get_storage_sample 1 2 1 2 2 3 =
          some (sub_storage.clone_ptr_off (get_storage_sample workspace_small.states_)
            (o * conf_small.ws_states_elsz))) :=
  states_offsets_agree get_storage_sample ws_sample conf_small workspace_small 1 1 2 2 2 3
    (by rfl) (by decide) (by decide) (by decide) (by decide) (by decide) (by decide)
    (by decide) (by decide)

end dnnl.rnn_utils

namespace dnnl.rnn_utils

/-! ## C4 -/

/-- C4, as stated, fails.  In `conf_wide` (non-negative dimensions, `2^30` elements)
`gates(2, 0, 0, 0)` uses the strided offset `2^31`, whereas
`calc_offset<4>({n_dir, n_iter+1, mb, gates_ws_ld}, {2, 0, 0, 0, 0})` is `-2^31`.  In
`conf_nodir` (no directions, minibatch `2^32`, no elements) `gates(0, 0, 1, 0)` uses byte
offset 0, whereas the closed formula gives `2^32 * 4`. -/
theorem gates_offset_differs :
    workspace_t.ctor ws_sample conf_wide = some workspace_wide ∧
    (0 < conf_wide.ws_gates_size ∧ 0 ≤ conf_wide.n_dir ∧ 0 ≤ conf_wide.n_iter ∧
      0 ≤ conf_wide.mb ∧ 0 ≤ conf_wide.gates_ws_ld ∧
      fitsInt32 ((conf_wide.n_layer + 1) * conf_wide.n_dir * (conf_wide.n_iter + 1) *
        conf_wide.mb * conf_wide.gates_ws_ld)) ∧
    workspace_wide.gates get_storage_sample 2 0 0 0 =
      some (sub_storage.clone_ptr_off (get_storage_sample workspace_wide.gates_)
        2147483648) ∧
    (calc_offset 4 ![conf_wide.n_dir, conf_wide.n_iter + 1, conf_wide.mb,
      conf_wide.gates_ws_ld] ![2, 0, 0, 0, 0]).map (· * conf_wide.ws_gates_elsz) =
      some (-2147483648) ∧
    workspace_t.ctor ws_sample conf_nodir = some workspace_nodir ∧
    (0 < conf_nodir.ws_gates_size ∧ 0 ≤ conf_nodir.n_dir ∧ 0 ≤ conf_nodir.n_iter ∧
      0 ≤ conf_nodir.mb ∧ 0 ≤ conf_nodir.gates_ws_ld ∧
      fitsInt32 ((conf_nodir.n_layer + 1) * conf_nodir.n_dir * (conf_nodir.n_iter + 1) *
        conf_nodir.mb * conf_nodir.gates_ws_ld)) ∧
    workspace_nodir.gates get_storage_sample 0 0 1 0 =
      some (sub_storage.clone_ptr_off (get_storage_sample workspace_nodir.gates_) 0) ∧
    (((0 * conf_nodir.n_dir + 0) * (conf_nodir.n_iter + 1) + 1) * conf_nodir.mb + 0) *
      conf_nodir.gates_ws_ld * conf_nodir.ws_gates_elsz = 17179869184 :=
  ⟨by rfl, by decide, by decide, by decide, by rfl, by decide, by decide, by decide⟩

/-- C4, amended: for a workspace built by the constructor from a `conf_t` with
`ws_gates_size > 0`, positive `n_dir`, `mb`, `gates_ws_ld`, non-negative `n_layer`,
`n_iter`, and whose element count `(n_layer + 1) * n_dir * (n_iter + 1) * mb * gates_ws_ld`
fits in an `int`: for every `layer, dir, time, mb`, whenever the strided sum over
`gates_strides()` is representable it is
`(((layer*n_dir + dir)*(n_iter+1) + time)*conf.mb + mb) * gates_ws_ld`, and `gates` uses
that value times `ws_gates_elsz` as byte offset; for every cell inside the workspace
(`0 <= layer <= n_layer`, `0 <= dir < n_dir`, `0 <= time <= n_iter`, `0 <= mb < conf.mb`)
the sum is representable and equals
`calc_offset<4>({n_dir, n_iter+1, conf.mb, gates_ws_ld}, {layer, dir, time, mb, 0})`. -/
theorem gates_offset_formula (get_storage : Option mst → mst) (ws : mst) (conf : conf_t)
    (w : workspace_t) (layer dir time mb : Int)
    (hw : workspace_t.ctor ws conf = some w) (hsz : 0 < conf.ws_gates_size)
    (hlay : 0 ≤ conf.n_layer) (hdir : 0 < conf.n_dir) (hiter : 0 ≤ conf.n_iter)
    (hmb : 0 < conf.mb) (hld : 0 < conf.gates_ws_ld)
    (htot : (conf.n_layer + 1) * conf.n_dir * (conf.n_iter + 1) * conf.mb * conf.gates_ws_ld
      ≤ 2147483647) :
    (∀ o : Int, workspace_t.get_offset w.gates_strides ![layer, dir, time, mb] = some o →
      o = (((layer * conf.n_dir + dir) * (conf.n_iter + 1) + time) * conf.mb + mb)
        * conf.gates_ws_ld ∧
      (fitsInt64 (o * conf.ws_gates_elsz) →
        w.gates get_storage layer dir time mb =
          some (sub_storage.clone_ptr_off (get_storage w.gates_)
            ((((layer * conf.n_dir + dir) * (conf.n_iter + 1) + time) * conf.mb + mb)
              * conf.gates_ws_ld * conf.ws_gates_elsz)))) ∧
    (0 ≤ layer ∧ layer ≤ conf.n_layer → 0 ≤ dir ∧ dir < conf.n_dir →
      0 ≤ time ∧ time ≤ conf.n_iter → 0 ≤ mb ∧ mb < conf.mb →
      ∃ o : Int,
        workspace_t.get_offset w.gates_strides ![layer, dir, time, mb] = some o ∧
        calc_offset 4 ![conf.n_dir, conf.n_iter + 1, conf.mb, conf.gates_ws_ld]
          ![layer, dir, time, mb, 0] = some o) := by
  obtain ⟨hc, -, hg⟩ := ctor_eq_some ws conf w hw
  subst hc
  obtain ⟨-, hst⟩ := hg hsz
  obtain ⟨-, c1, -⟩ := cell_bounds w.conf_.n_layer w.conf_.n_dir
    (w.conf_.n_iter + 1) w.conf_.mb w.conf_.gates_ws_ld 0 0 0 0 ⟨le_rfl, hlay⟩ ⟨le_rfl, hdir⟩
    ⟨le_rfl, by omega⟩ ⟨le_rfl, hmb⟩ hld htot
  rw [init_gates_strides_eq w.conf_ hdir hiter hmb hld c1, Option.some.injEq] at hst
  constructor
  · intro o ho
    have hval := get_offset_some _ _ _ ho
    rw [workspace_t.gates_strides, ← hst] at hval
    simp only [Matrix.cons_val_zero, Matrix.cons_val_one, Matrix.head_cons,
      Matrix.cons_val_two, Matrix.tail_cons, Matrix.cons_val_three] at hval
    have hform : o = (((layer * w.conf_.n_dir + dir) * (w.conf_.n_iter + 1) + time)
        * w.conf_.mb + mb) * w.conf_.gates_ws_ld := by
      rw [hval]
      ring
    subst hform
    refine ⟨rfl, fun hf => ?_⟩
    simp only [workspace_t.gates, ho, Option.some_bind, mul64, chk64_of_fits _ hf,
      Option.map_some']
  · intro hlayer hd ht hm
    obtain ⟨-, -, c2, c3, c4, c5, c6, c7⟩ := cell_bounds w.conf_.n_layer w.conf_.n_dir
      (w.conf_.n_iter + 1) w.conf_.mb w.conf_.gates_ws_ld layer dir time mb hlayer hd
      ⟨ht.1, by omega⟩ hm hld htot
    refine ⟨w.conf_.n_dir * ((w.conf_.n_iter + 1) * w.conf_.mb) * w.conf_.gates_ws_ld * layer +
      (w.conf_.n_iter + 1) * w.conf_.mb * w.conf_.gates_ws_ld * dir +
      w.conf_.mb * w.conf_.gates_ws_ld * time + w.conf_.gates_ws_ld * mb, ?_, ?_⟩
    · rw [workspace_t.gates_strides, ← hst]
      refine get_offset_eq _ _ ?_ ?_ ?_ ?_ ?_ ?_ ?_ <;>
        simp only [Matrix.cons_val_zero, Matrix.cons_val_one, Matrix.head_cons,
          Matrix.cons_val_two, Matrix.tail_cons, Matrix.cons_val_three] <;>
        unfold fitsInt64 <;> omega
    · rw [c6, ← lin_index_four]
      apply calc_offset_of_in_bounds
      · exact in_bounds_four _ _ _ _ _ _ _ _ _ hlayer.1 hd ⟨ht.1, by omega⟩ hm ⟨le_rfl, hld⟩
      · rw [lin_index_four]
        unfold fitsInt32
        omega

/-- C4, amended, at `conf_small` and the cell `(1, 1, 2, 1)`: element offset 215, byte
offset `215 * 4`. -/
theorem gates_offset_formula_witness :
    workspace_small.gates get_storage_sample 1 1 2 1 =
      some (sub_storage.clone_ptr_off (get_storage_sample workspace_small.gates_) (215 * 4)) ∧
    ∃ o : Int,
      workspace_t.get_offset workspace_small.gates_strides ![1, 1, 2, 1] = some o ∧
      calc_offset 4 ![conf_small.n_dir, conf_small.n_iter + 1, conf_small.mb,
        conf_small.gates_ws_ld] ![1, 1, 2, 1, 0] = some o :=
  ⟨((gates_offset_formula get_storage_sample ws_sample conf_small workspace_small 1 1 2 1
      (by rfl) (by decide) (by decide) (by decide) (by decide) (by decide) (by decide)
      (by decide)).1 215 (by decide)).2 (by decide),
   (gates_offset_formula get_storage_sample ws_sample conf_small workspace_small 1 1 2 1
      (by rfl) (by decide) (by decide) (by decide) (by decide) (by decide) (by decide)
      (by decide)).2 (by decide) (by decide) (by decide) (by decide)⟩

end dnnl.rnn_utils

namespace gemmstone

/-! ## C5 -/

/-- C5, as stated, fails for a call with an adjuster: on the sample engine, under the
requirement "alignment at least 32", the winner `strategy_scalar32` satisfies the
requirement, but the adjuster `adjuster_to_scalar16` replaces it, the result is not
validated again, and the returned Package carries `strategy_scalar16`, which violates the
requirement. -/
theorem select_adjuster_breaks_requirement :
    req_alignment32 ∈ [req_alignment32] ∧
    selectGEMMMicrokernel engine_sample protocol_sample hw_scalar sizes_sample problem_sample
        [req_alignment32] (some adjuster_to_scalar16) = Except.ok package_scalar16 ∧
    engine_sample.satisfies package_scalar16.strategy req_alignment32 = false ∧
    selectGEMMMicrokernel engine_sample protocol_sample hw_scalar sizes_sample problem_sample
        [req_alignment32] none = Except.ok package_scalar32 ∧
    engine_sample.satisfies package_scalar32.strategy req_alignment32 = true :=
  ⟨by decide, by rfl, by decide, by rfl, by decide⟩

/-- C5, amended (requirement satisfaction): for every protocol, hardware, sizes, problem,
requirement list and adjuster, whenever `selectGEMMMicrokernel` returns a Package, the
strategy it carries is the adjuster applied to an enumerated candidate that satisfies
every requirement of the list; hence the carried strategy itself satisfies every
requirement when the call has no adjuster, and when the adjuster maps strategies
satisfying the requirements to strategies satisfying them.  If no candidate satisfies all
requirements, no Package is returned, whatever the adjuster. -/
theorem select_satisfies_requirements (E : Engine) (protocol : GEMMProtocol)
    (hwInfo : HWInformation) (sizes : SizeParams) (problem : GEMMProblem)
    (reqs : List StrategyRequirement) :
    (∀ (adj : Option (GEMMStrategy → GEMMStrategy)) (pkg : Package),
      selectGEMMMicrokernel E protocol hwInfo sizes problem reqs adj = Except.ok pkg →
      ∃ best : GEMMStrategy, best ∈ E.enumerate hwInfo problem ∧
        (∀ r ∈ reqs, E.satisfies best r = true) ∧ pkg.strategy = applyAdjuster adj best) ∧
    (∀ pkg : Package,
      selectGEMMMicrokernel E protocol hwInfo sizes problem reqs none = Except.ok pkg →
      pkg.strategy ∈ E.enumerate hwInfo problem ∧
        ∀ r ∈ reqs, E.satisfies pkg.strategy r = true) ∧
    (∀ (f : GEMMStrategy → GEMMStrategy) (pkg : Package),
      (∀ s : GEMMStrategy, (∀ r ∈ reqs, E.satisfies s r = true) →
        ∀ r ∈ reqs, E.satisfies (f s) r = true) →
      selectGEMMMicrokernel E protocol hwInfo sizes problem reqs (some f) = Except.ok pkg →
      ∀ r ∈ reqs, E.satisfies pkg.strategy r = true) ∧
    ((∀ s ∈ E.enumerate hwInfo problem, ∃ r ∈ reqs, E.satisfies s r = false) →
      ∀ (adj : Option (GEMMStrategy → GEMMStrategy)) (pkg : Package),
        selectGEMMMicrokernel E protocol hwInfo sizes problem reqs adj ≠ Except.ok pkg) := by
  have key : ∀ (adj : Option (GEMMStrategy → GEMMStrategy)) (pkg : Package),
      selectGEMMMicrokernel E protocol hwInfo sizes problem reqs adj = Except.ok pkg →
      ∃ best : GEMMStrategy, best ∈ E.enumerate hwInfo problem ∧
        (∀ r ∈ reqs, E.satisfies best r = true) ∧ pkg.strategy = applyAdjuster adj best := by
    intro adj pkg h
    obtain ⟨-, i, best, hw, hb⟩ :=
      (select_ok_iff E protocol hwInfo sizes problem reqs adj pkg).mp h
    have hmem := pickBest_mem _ _ _ (isWinner_pickBest _ _ _ _ hw)
    rw [mem_requirementFilter] at hmem
    exact ⟨best, hmem.1, hmem.2, (buildPackage_ok E protocol hwInfo _ pkg hb).1⟩
  refine ⟨key, ?_, ?_, ?_⟩
  · intro pkg h
    obtain ⟨best, hmem, hsat, hs⟩ := key none pkg h
    have hs' : pkg.strategy = best := hs
    rw [hs']
    exact ⟨hmem, hsat⟩
  · intro f pkg hf h
    obtain ⟨best, -, hsat, hs⟩ := key (some f) pkg h
    have hs' : pkg.strategy = f best := hs
    rw [hs']
    exact hf best hsat
  · intro hnone adj pkg h
    obtain ⟨best, hmem, hsat, -⟩ := key adj pkg h
    obtain ⟨r, hr, hf⟩ := hnone best hmem
    rw [hsat r hr] at hf
    exact absurd hf (by simp)

/-- C5, amended, on the sample engine: with the requirement "alignment at least 32" and
no adjuster the package carries `strategy_scalar32`, which satisfies it; with the
overwriting adjuster the package carries the adjusted winner; with the identity adjuster
the requirement stays satisfied; with the requirement "systolic" on hardware without
systolic units no package is returned. -/
theorem select_satisfies_requirements_witness :
    (∃ best : GEMMStrategy, best ∈ engine_sample.enumerate hw_scalar problem_sample ∧
      (∀ r ∈ [req_alignment32], engine_sample.satisfies best r = true) ∧
      package_scalar16.strategy = applyAdjuster (some adjuster_to_scalar16) best) ∧
    (package_scalar32.strategy ∈ engine_sample.enumerate hw_scalar problem_sample ∧
      ∀ r ∈ [req_alignment32], engine_sample.satisfies package_scalar32.strategy r = true) ∧
    (∀ r ∈ [req_alignment32], engine_sample.satisfies package_scalar32.strategy r = true) ∧
    ∀ (adj : Option (GEMMStrategy → GEMMStrategy)) (pkg : Package),
      selectGEMMMicrokernel engine_sample protocol_sample hw_scalar sizes_sample
        problem_sample [{ name := 1, value := 1 }] adj ≠ Except.ok pkg :=
  ⟨(select_satisfies_requirements engine_sample protocol_sample hw_scalar sizes_sample
      problem_sample [req_alignment32]).1 (some adjuster_to_scalar16) package_scalar16
      (by rfl),
    (select_satisfies_requirements engine_sample protocol_sample hw_scalar sizes_sample
      problem_sample [req_alignment32]).2.1 package_scalar32 (by rfl),
    (select_satisfies_requirements engine_sample protocol_sample hw_scalar sizes_sample
      problem_sample [req_alignment32]).2.2.1 (fun s => s) package_scalar32
      (fun _ h => h) (by rfl),
    (select_satisfies_requirements engine_sample protocol_sample hw_scalar sizes_sample
      problem_sample [{ name := 1, value := 1 }]).2.2.2 (by decide)⟩

/-! ## C6 -/

/-- C6 (determinism): for fixed protocol, hardware, sizes, problem and requirements and
no adjuster, the outcome of a selection call is unique: any two Packages the design
allows for these inputs are identical, and `selectGEMMMicrokernel` returns a Package
exactly when it is that allowed outcome. -/
theorem select_deterministic (E : Engine) (protocol : GEMMProtocol)
    (hwInfo : HWInformation) (sizes : SizeParams) (problem : GEMMProblem)
    (reqs : List StrategyRequirement) :
    (∀ pkg : Package,
      selectGEMMMicrokernel E protocol hwInfo sizes problem reqs none = Except.ok pkg ↔
        Selects E protocol hwInfo sizes problem reqs none pkg) ∧
    (∀ pkg₁ pkg₂ : Package,
      Selects E protocol hwInfo sizes problem reqs none pkg₁ →
      Selects E protocol hwInfo sizes problem reqs none pkg₂ → pkg₁ = pkg₂) := by
  refine ⟨fun pkg => select_ok_iff E protocol hwInfo sizes problem reqs none pkg, ?_⟩
  rintro pkg₁ pkg₂ ⟨-, i₁, b₁, hw₁, hb₁⟩ ⟨-, i₂, b₂, hw₂, hb₂⟩
  obtain ⟨-, hb⟩ := isWinner_unique _ _ _ _ _ _ hw₁ hw₂
  subst hb
  rw [hb₁] at hb₂
  exact Except.ok.inj hb₂

/-- C6 on the sample engine: `strategy_scalar32` and `strategy_scalar32b` tie for the
best score; the only allowed outcome packages the earlier one. -/
theorem select_deterministic_witness :
    Selects engine_sample protocol_sample hw_scalar sizes_sample problem_sample [] none
      package_scalar32 ∧
    ¬ Selects engine_sample protocol_sample hw_scalar sizes_sample problem_sample [] none
      package_scalar32b :=
  have h := select_deterministic engine_sample protocol_sample hw_scalar sizes_sample
    problem_sample []
  have h₁ := (h.1 package_scalar32).mp (by rfl)
  ⟨h₁, fun h₂ => absurd (h.2 _ _ h₁ h₂) (by decide)⟩

/-! ## C7 -/

/-- C7 (adjuster isolation): a call with an adjuster that leaves every strategy unchanged
returns what the call without adjuster returns; and without adjuster the Package carries
the winning candidate itself, under the requested protocol. -/
theorem select_adjuster_isolation (E : Engine) (protocol : GEMMProtocol)
    (hwInfo : HWInformation) (sizes : SizeParams) (problem : GEMMProblem)
    (reqs : List StrategyRequirement) :
    (∀ f : GEMMStrategy → GEMMStrategy, (∀ s, f s = s) →
      selectGEMMMicrokernel E protocol hwInfo sizes problem reqs (some f) =
        selectGEMMMicrokernel E protocol hwInfo sizes problem reqs none) ∧
    (∀ pkg : Package,
      selectGEMMMicrokernel E protocol hwInfo sizes problem reqs none = Except.ok pkg →
      pickBest (E.score hwInfo sizes problem)
        (requirementFilter E reqs (E.enumerate hwInfo problem)) = some pkg.strategy ∧
      pkg.protocol = protocol) := by
  constructor
  · intro f hf
    unfold selectGEMMMicrokernel
    by_cases hrec : reqs.all E.recognised = true
    · simp only [hrec, if_true]
      cases pickBest (E.score hwInfo sizes problem)
          (requirementFilter E reqs (E.enumerate hwInfo problem)) with
      | none => rfl
      | some best => simp only [applyAdjuster, hf]
    · simp only [hrec, Bool.false_eq_true, if_false]
  · intro pkg h
    obtain ⟨-, i, best, hw, hb⟩ := (select_ok_iff E protocol hwInfo sizes problem reqs none pkg).mp h
    obtain ⟨hs, hp, -⟩ := buildPackage_ok E protocol hwInfo _ pkg hb
    rw [hs, hp]
    exact ⟨isWinner_pickBest _ _ _ _ hw, rfl⟩

/-- C7 on the sample engine with the identity adjuster. -/
theorem select_adjuster_isolation_witness :
    selectGEMMMicrokernel engine_sample protocol_sample hw_sample sizes_sample problem_sample
        [] (some fun s => s) =
      selectGEMMMicrokernel engine_sample protocol_sample hw_sample sizes_sample
        problem_sample [] none ∧
    (pickBest (engine_sample.score hw_sample sizes_sample problem_sample)
        (requirementFilter engine_sample [] (engine_sample.enumerate hw_sample problem_sample))
        = some strategy_systolic32 ∧
      protocol_sample = protocol_sample) :=
  ⟨(select_adjuster_isolation engine_sample protocol_sample hw_sample sizes_sample
      problem_sample []).1 (fun s => s) (fun _ => rfl),
    (select_adjuster_isolation engine_sample protocol_sample hw_sample sizes_sample
      problem_sample []).2
      package_systolic32
      (by rfl)⟩

/-! ## C8 -/

/-- C8, as stated, fails: `hw_no_eu`, with `euCount = 0`, is a value of `HWInformation`
whose fields are representable in their declared types, and so is one with
`euCount = -1`. -/
theorem hwInformation_euCount_not_positive :
    hw_no_eu.well_typed ∧ ¬ (0 < hw_no_eu.euCount) ∧
    (HWInformation.mk 0 (-1) false).well_typed ∧
    ¬ (0 < (HWInformation.mk 0 (-1) false).euCount) :=
  ⟨by decide, by decide, by decide, by decide⟩

/-- C8, amended: an `HWInformation` consists of exactly the three fields `gmdid`,
`euCount` and `systolicAvailable` (two values with the same three fields are equal), and
`euCount` is an unconstrained `int`: every triple of a `uint32_t`, an `int` (positive or
not) and a `bool` is the field triple of an `HWInformation`. -/
theorem hwInformation_fields :
    (∀ hw hw' : HWInformation, hw.gmdid = hw'.gmdid → hw.euCount = hw'.euCount →
      hw.systolicAvailable = hw'.systolicAvailable → hw = hw') ∧
    (∀ (g : Nat) (e : Int) (s : Bool), g < 4294967296 → dnnl.fitsInt32 e →
      ∃ hw : HWInformation, hw.well_typed ∧ hw.gmdid = g ∧ hw.euCount = e ∧
        hw.systolicAvailable = s) := by
  constructor
  · intro hw hw' h1 h2 h3
    cases hw
    cases hw'
    simp only at h1 h2 h3
    subst h1 h2 h3
    rfl
  · intro g e s hg he
    exact ⟨⟨g, e, s⟩, ⟨hg, he⟩, rfl, rfl, rfl⟩

/-- C8, amended, at the triple `(1, -5, true)`. -/
theorem hwInformation_fields_witness :
    ∃ hw : HWInformation, hw.well_typed ∧ hw.gmdid = 1 ∧ hw.euCount = -5 ∧
      hw.systolicAvailable = true :=
  hwInformation_fields.2 1 (-5) true (by decide) (by decide)

/-! ## C9 -/

/-- C9: for every `int` `ld` (zero and negative values included, indeed for every
integer), `alignmentForLD(ld)` returns the greatest element of
`{1, 2, 4, 8, 16, 32, 64, 128}` that divides `ld`; equivalently a power of two
`2^j <= 128` divides `ld` exactly when it is at most the result.  In particular the
result is 128 for `ld = 0` and 1 for odd `ld`. -/
theorem alignmentForLD_greatest (ld : Int) :
    ∃ a : Int, alignmentForLD ld = some a ∧
      a ∈ [1, 2, 4, 8, 16, 32, 64, 128] ∧ a ∣ ld ∧
      (∀ X ∈ [1, 2, 4, 8, 16, 32, 64, 128], X ∣ ld → X ≤ a) ∧
      (∀ j : Nat, j ≤ 7 → ((2 : Int) ^ j ∣ ld ↔ (2 : Int) ^ j ≤ a)) ∧
      (ld = 0 → a = 128) ∧ (ld % 2 = 1 → a = 1) := by
  obtain ⟨a, ha, hc⟩ := alignmentForLD_cases ld
  refine ⟨a, ha, ?_, ?_, ?_, ?_, ?_, ?_⟩
  · simp only [List.mem_cons, List.mem_singleton, List.not_mem_nil, or_false]
    omega
  · rcases hc with ⟨rfl, h⟩ | ⟨rfl, h⟩ | ⟨rfl, h⟩ | ⟨rfl, h⟩ | ⟨rfl, h⟩ | ⟨rfl, h⟩ | ⟨rfl, h⟩ |
      ⟨rfl, h⟩ <;> omega
  · intro X hX hd
    simp only [List.mem_cons, List.mem_singleton, List.not_mem_nil, or_false] at hX
    rcases hX with rfl | rfl | rfl | rfl | rfl | rfl | rfl | rfl <;> omega
  · intro j hj
    interval_cases j <;> norm_num <;> omega
  · intro h
    omega
  · intro h
    omega

/-- C9 at `ld = -24`: the result is 8. -/
theorem alignmentForLD_greatest_witness : alignmentForLD (-24) = some 8 := by
  obtain ⟨a, ha, hm, -, -, hj, -, -⟩ := alignmentForLD_greatest (-24)
  have h3 := hj 3 (by omega)
  have h4 := hj 4 (by omega)
  norm_num at h3 h4
  simp only [List.mem_cons, List.mem_singleton, List.not_mem_nil, or_false] at hm
  have : a = 8 := by omega
  rw [ha, this]

end gemmstone

namespace dnnl

/-! ## C10 -/

/-- C10: `calc_offset` is injective on in-bounds indices.  For positive bounds `Ds` and
two index tuples `Is`, `Js` with non-negative leading index and `0 <= Is[i+1] < Ds[i]`
whose linear indices fit in an `int`, `calc_offset` returns a value on both, that value
is non-negative and below `(Is[0] + 1) * Ds[0] * ... * Ds[N-1]`, and equal results force
`Is = Js`. -/
theorem calc_offset_injective (N : Nat) (Ds : Fin N → Int) (Is Js : Fin (N + 1) → Int)
    (hI : in_bounds N Ds Is) (hJ : in_bounds N Ds Js)
    (hIf : fitsInt32 (lin_index N Ds Is N)) (hJf : fitsInt32 (lin_index N Ds Js N)) :
    (∃ r : Int, calc_offset N Ds Is = some r ∧ 0 ≤ r ∧ r < (Is 0 + 1) * dims_prod N Ds N) ∧
    (calc_offset N Ds Is = calc_offset N Ds Js → Is = Js) := by
  have hbI := lin_index_bounds N Ds Is hI N
  refine ⟨⟨_, calc_offset_of_in_bounds N Ds Is hI hIf, hbI.1, by omega⟩, fun h => ?_⟩
  rw [calc_offset_of_in_bounds N Ds Is hI hIf, calc_offset_of_in_bounds N Ds Js hJ hJf] at h
  funext j
  exact lin_index_inj N Ds Is Js hI hJ N le_rfl (Option.some.inj h) j (Nat.le_of_lt_succ j.isLt)

/-- C10 at the state dimensions of `conf_small`, `{2, 4, 3, 4}`, and the cells
`(1, 1, 2, 0, 0)` and `(1, 1, 2, 0, 1)`: offsets 168 and 169. -/
theorem calc_offset_injective_witness :
    (in_bounds 4 ![2, 4, 3, 4] ![1, 1, 2, 0, 0] ∧ in_bounds 4 ![2, 4, 3, 4] ![1, 1, 2, 0, 1] ∧
      fitsInt32 (lin_index 4 ![2, 4, 3, 4] ![1, 1, 2, 0, 0] 4) ∧
      fitsInt32 (lin_index 4 ![2, 4, 3, 4] ![1, 1, 2, 0, 1] 4)) ∧
    (∃ r : Int, calc_offset 4 ![2, 4, 3, 4] ![1, 1, 2, 0, 0] = some r ∧ 0 ≤ r ∧
      r < ((![1, 1, 2, 0, 0] : Fin 5 → Int) 0 + 1) * dims_prod 4 ![2, 4, 3, 4] 4) ∧
    (calc_offset 4 ![2, 4, 3, 4] ![1, 1, 2, 0, 0] = calc_offset 4 ![2, 4, 3, 4] ![1, 1, 2, 0, 1] →
      (![1, 1, 2, 0, 0] : Fin 5 → Int) = ![1, 1, 2, 0, 1]) :=
  ⟨⟨by decide, by decide, by decide, by decide⟩,
    calc_offset_injective 4 ![2, 4, 3, 4] ![1, 1, 2, 0, 0] ![1, 1, 2, 0, 1]
      (by decide) (by decide) (by decide) (by decide)⟩

end dnnl

namespace dnnl.rnn_utils

/-! ### `calc_global_range` -/

/-- Without wrap-around `calc_global_range` rounds `gl_range` up to a multiple of
`lc_range`. -/
theorem calc_global_range_eq (lc gl : Nat) (hlc : 0 < lc)
    (hrep : gl + lc - 1 < 18446744073709551616) :
    calc_global_range lc gl = some ((gl + lc - 1) / lc * lc) := by
  have h1 : toSize_t (lc + 18446744073709551616 - 1) = lc - 1 := by
    unfold toSize_t; omega
  have h2 : toSize_t (gl + (lc - 1)) = gl + lc - 1 := by
    unfold toSize_t; omega
  have h3 : (gl + lc - 1) / lc * lc ≤ gl + lc - 1 := Nat.div_mul_le_self _ _
  have h4 : toSize_t ((gl + lc - 1) / lc * lc) = (gl + lc - 1) / lc * lc := by
    unfold toSize_t; omega
  simp only [calc_global_range, Nat.ne_of_gt hlc, if_false, h1, h2, h4]

/-- The rounded value `(gl + lc - 1) / lc * lc` is the least multiple of `lc` that is at
least `gl`. -/
theorem round_up_least (lc gl : Nat) (hlc : 0 < lc) :
    lc ∣ (gl + lc - 1) / lc * lc ∧ gl ≤ (gl + lc - 1) / lc * lc ∧
    (gl + lc - 1) / lc * lc < gl + lc ∧
    ∀ m : Nat, lc ∣ m → gl ≤ m → (gl + lc - 1) / lc * lc ≤ m := by
  have hdm := Nat.div_add_mod (gl + lc - 1) lc
  have hm := Nat.mod_lt (gl + lc - 1) hlc
  have hc : lc * ((gl + lc - 1) / lc) = (gl + lc - 1) / lc * lc := Nat.mul_comm _ _
  refine ⟨Dvd.intro_left _ rfl, by omega, by omega, ?_⟩
  rintro m ⟨k, rfl⟩ hk
  rw [← hc]
  apply Nat.mul_le_mul_left
  by_contra hlt
  have hlt' : k + 1 ≤ (gl + lc - 1) / lc := by omega
  have := Nat.mul_le_mul_left lc hlt'
  rw [Nat.mul_add, Nat.mul_one] at this
  omega

/-! ### `get_outer_strides` -/

theorem outer_stride_of_lt (md : memory_desc_wrapper) (i : Fin 12)
    (h : (i.val : Int) < md.ndims) : outer_stride md i = md.strides i := if_pos h

theorem outer_stride_of_ge (md : memory_desc_wrapper) (i : Fin 12)
    (h : ¬ (i.val : Int) < md.ndims) : outer_stride md i = 0 := if_neg h

/-- The body of the loop of `get_outer_strides` with its two indices `d` and `d + 1` named. -/
theorem get_outer_strides_step_eq (md : memory_desc_wrapper) (r : dims_t) (d : Fin 5)
    (i j : Fin 12) (hi : i.val = d.val) (hj : j.val = d.val + 1) :
    get_outer_strides_step md r d =
      if (d.val : Int) ≥ md.ndims then some (Function.update r i 0)
      else if md.padded_dims i > 1 then some (Function.update r i (md.strides i))
      else if (d.val : Int) = md.ndims - 1 then some (Function.update r i 1)
      else (mul64 (r j) (md.padded_dims j)).map fun v => Function.update r i v := by
  obtain rfl : i = ⟨d.val, Nat.lt_of_lt_of_le d.isLt (by decide)⟩ := Fin.ext hi
  obtain rfl : j = ⟨d.val + 1, Nat.lt_of_lt_of_le (Nat.succ_lt_succ d.isLt) (by decide)⟩ :=
    Fin.ext hj
  rfl

/-- One iteration of the loop of `get_outer_strides` on a dense layout: if the entries
above `d` already hold the expected values, the iteration stores the expected value in
`ret[d]` and leaves the other entries alone. -/
theorem get_outer_strides_step_dense (md : memory_desc_wrapper) (r : dims_t) (d : Fin 5)
    (hn : md.ndims ≤ 5) (hfit : ∀ i : Fin 12, fitsInt64 (md.strides i))
    (hd : dense_row_major md)
    (hr : ∀ i : Fin 12, d.val < i.val → i.val < 5 → r i = outer_stride md i) :
    ∃ r' : dims_t, get_outer_strides_step md r d = some r' ∧
      (∀ i : Fin 12, i.val = d.val → r' i = outer_stride md i) ∧
      (∀ i : Fin 12, i.val ≠ d.val → r' i = r i) := by
  have hd5 : d.val < 5 := d.isLt
  have hi12 : d.val < 12 := by omega
  have hj12 : d.val + 1 < 12 := by omega
  have hstep := get_outer_strides_step_eq md r d ⟨d.val, hi12⟩ ⟨d.val + 1, hj12⟩ rfl rfl
  have hupd : ∀ (v : Int) (i : Fin 12), i.val ≠ d.val →
      Function.update r ⟨d.val, hi12⟩ v i = r i := by
    intro v i hi
    exact Function.update_noteq (fun h => hi (congrArg Fin.val h)) _ _
  have hsame : ∀ (v : Int) (i : Fin 12), i.val = d.val →
      Function.update r ⟨d.val, hi12⟩ v i = v := by
    intro v i hi
    have : i = ⟨d.val, hi12⟩ := Fin.ext hi
    rw [this, Function.update_same]
  have hexp : ∀ i : Fin 12, i.val = d.val →
      outer_stride md i = outer_stride md ⟨d.val, hi12⟩ := by
    intro i hi
    rw [show i = ⟨d.val, hi12⟩ from Fin.ext hi]
  rw [hstep]
  by_cases h1 : (d.val : Int) ≥ md.ndims
  · rw [if_pos h1]
    have hz : outer_stride md ⟨d.val, hi12⟩ = 0 :=
      outer_stride_of_ge md _ (show ¬ ((d.val : Int) < md.ndims) by omega)
    refine ⟨_, rfl, fun i hi => ?_, fun i hi => hupd _ i hi⟩
    rw [hsame _ i hi, hexp i hi, hz]
  rw [if_neg h1]
  have hs : outer_stride md ⟨d.val, hi12⟩ = md.strides ⟨d.val, hi12⟩ :=
    outer_stride_of_lt md _ (show (d.val : Int) < md.ndims by omega)
  by_cases h2 : md.padded_dims ⟨d.val, hi12⟩ > 1
  · rw [if_pos h2]
    refine ⟨_, rfl, fun i hi => ?_, fun i hi => hupd _ i hi⟩
    rw [hsame _ i hi, hexp i hi, hs]
  rw [if_neg h2]
  by_cases h3 : (d.val : Int) = md.ndims - 1
  · rw [if_pos h3]
    have hone : md.strides ⟨d.val, hi12⟩ = 1 :=
      hd.1 ⟨d.val, hi12⟩ (show (d.val : Int) + 1 = md.ndims by omega)
    refine ⟨_, rfl, fun i hi => ?_, fun i hi => hupd _ i hi⟩
    rw [hsame _ i hi, hexp i hi, hs, hone]
  rw [if_neg h3]
  have hlt : d.val + 1 < 5 := by omega
  have hdl : d.val < 11 := by omega
  have hnext : r ⟨d.val + 1, hj12⟩ = outer_stride md ⟨d.val + 1, hj12⟩ :=
    hr ⟨d.val + 1, hj12⟩ (Nat.lt_succ_self _) hlt
  have hos : outer_stride md ⟨d.val + 1, hj12⟩ = md.strides ⟨d.val + 1, hj12⟩ :=
    outer_stride_of_lt md _ (show ((d.val + 1 : Nat) : Int) < md.ndims by omega)
  have hdense : md.strides ⟨d.val, hi12⟩ =
      md.strides ⟨d.val + 1, hj12⟩ * md.padded_dims ⟨d.val + 1, hj12⟩ :=
    hd.2 ⟨d.val, hdl⟩ (show (d.val : Int) + 1 < md.ndims by omega)
  have hmul : mul64 (r ⟨d.val + 1, hj12⟩) (md.padded_dims ⟨d.val + 1, hj12⟩) =
      some (md.strides ⟨d.val, hi12⟩) := by
    rw [hnext, hos, mul64, ← hdense]
    exact chk64_of_fits _ (hfit _)
  rw [hmul, Option.map_some']
  refine ⟨_, rfl, fun i hi => ?_, fun i hi => hupd _ i hi⟩
  rw [hsame _ i hi, hexp i hi, hs]

/-- The loop of `get_outer_strides` on a dense layout after `k` iterations. -/
theorem get_outer_strides_iter_dense (md : memory_desc_wrapper) (ret : dims_t)
    (hn : md.ndims ≤ 5) (hfit : ∀ i : Fin 12, fitsInt64 (md.strides i))
    (hd : dense_row_major md) (k : Nat) (hk : k ≤ 5) :
    ∃ r : dims_t, get_outer_strides_iter md ret k = some r ∧
      (∀ i : Fin 12, 5 - k ≤ i.val → i.val < 5 → r i = outer_stride md i) ∧
      (∀ i : Fin 12, i.val < 5 - k ∨ 5 ≤ i.val → r i = ret i) := by
  induction k with
  | zero =>
    refine ⟨ret, rfl, fun i h1 h2 => ?_, fun _ _ => rfl⟩
    omega
  | succ k ih =>
    have hk5 : k < 5 := hk
    obtain ⟨r, hr, hin, hout⟩ := ih (Nat.le_of_lt hk5)
    obtain ⟨r', hr', hat, hother⟩ := get_outer_strides_step_dense md r
      ⟨4 - k, Nat.lt_of_le_of_lt (Nat.sub_le 4 k) (by decide)⟩ hn hfit hd
      (fun i h1 h2 => hin i (by simp only at h1; omega) h2)
    refine ⟨r', ?_, fun i h1 h2 => ?_, fun i hi => ?_⟩
    · simp only [get_outer_strides_iter, hk5, dif_pos, hr, Option.some_bind, hr']
    · by_cases he : i.val = 4 - k
      · exact hat i he
      · rw [hother i he]
        exact hin i (by omega) h2
    · rw [hother i (by simp only; omega)]
      exact hout i (by omega)

/-! ## C11 -/

/-- C11, on the code: for every `conf_t` with `ws_bias_size <= 0` the member initialiser
leaves `bias_` null and the unguarded `bias_->set_offset(...)` at the end of the
constructor dereferences it, so construction does not succeed. -/
theorem workspace_ctor_null_bias (ws : mst) (conf : conf_t) (h : conf.ws_bias_size ≤ 0) :
    workspace_t.ctor ws conf = none := by
  have hb : ¬ (conf.ws_bias_size > 0) := not_lt.mpr h
  unfold workspace_t.ctor
  simp only [hb, if_false, Option.map_none']
  cases (match (if conf.ws_gates_size > 0 then ws.clone else none) with
    | some g =>
      (workspace_t.init_gates_strides conf).map fun st =>
        (some (g.set_offset (g.offset + toSize conf.ws_gates_offset)), st)
    | none => some (none, ![0, 0, 0, 0])) with
  | none => rfl
  | some gp =>
    simp only [Option.some_bind]
    cases (match (if conf.ws_states_size > 0 then ws.clone else none) with
      | some s =>
        (workspace_t.init_states_strides conf).map fun st =>
          (some (s.set_offset (s.offset + toSize conf.ws_states_offset)), st)
      | none => some (none, ![0, 0, 0, 0])) with
    | none => rfl
    | some sp => rfl

/-- C11 at `conf_no_bias` (`conf_small` with `ws_bias_size = 0`): construction fails,
whereas for `conf_bias_only`, where the gates and states parts are the absent ones, the
guarded branches are skipped and construction succeeds. -/
theorem workspace_ctor_null_bias_witness :
    conf_no_bias.ws_bias_size ≤ 0 ∧ workspace_t.ctor ws_sample conf_no_bias = none ∧
    workspace_t.ctor ws_sample conf_bias_only = some workspace_bias_only :=
  ⟨by decide, workspace_ctor_null_bias ws_sample conf_no_bias (by decide), by rfl⟩

/-! ## C12 -/

/-- C12, as stated, fails in its idempotence part: for `lc_range = 3` and
`gl_range = 2^64 - 3` the sum `gl_range + lc_range - 1` is representable and the result is
`2^64 - 1`, but applying the function to that result wraps around and gives 0. -/
theorem calc_global_range_not_idempotent :
    (0 < 3 ∧ 18446744073709551613 + 3 - 1 < 18446744073709551616) ∧
    calc_global_range 3 18446744073709551613 = some 18446744073709551615 ∧
    calc_global_range 3 18446744073709551615 = some 0 ∧
    (calc_global_range 3 18446744073709551613).bind (calc_global_range 3) ≠
      calc_global_range 3 18446744073709551613 :=
  ⟨by decide, by decide, by decide, by decide⟩

/-- C12, amended: for every `lc_range > 0` and `gl_range` with
`gl_range + lc_range - 1` representable in `size_t`, `calc_global_range` returns the
least multiple of `lc_range` that is at least `gl_range` (it is divisible by `lc_range`,
at least `gl_range`, and exceeds it by less than `lc_range`), returns `gl_range` itself
when that is a multiple of `lc_range`, and is idempotent in its second argument whenever
the result plus `lc_range - 1` is representable in `size_t` as well. -/
theorem calc_global_range_least (lc_range gl_range : Nat) (hlc : 0 < lc_range)
    (hrep : gl_range + lc_range - 1 < 18446744073709551616) :
    ∃ r : Nat, calc_global_range lc_range gl_range = some r ∧
      lc_range ∣ r ∧ gl_range ≤ r ∧ r < gl_range + lc_range ∧
      (∀ m : Nat, lc_range ∣ m → gl_range ≤ m → r ≤ m) ∧
      (lc_range ∣ gl_range → r = gl_range) ∧
      (r + lc_range - 1 < 18446744073709551616 → calc_global_range lc_range r = some r) := by
  obtain ⟨h1, h2, h3, h4⟩ := round_up_least lc_range gl_range hlc
  refine ⟨_, calc_global_range_eq lc_range gl_range hlc hrep, h1, h2, h3, h4, ?_, ?_⟩
  · intro hd
    exact Nat.le_antisymm (h4 gl_range hd le_rfl) h2
  · intro hrep'
    rw [calc_global_range_eq lc_range _ hlc hrep']
    obtain ⟨k1, k2, -, k4⟩ := round_up_least lc_range ((gl_range + lc_range - 1) / lc_range * lc_range) hlc
    exact congrArg some (Nat.le_antisymm (k4 _ h1 le_rfl) k2)

/-- C12, amended, at `lc_range = 8`, `gl_range = 17`. -/
theorem calc_global_range_least_witness :
    ∃ r : Nat, calc_global_range 8 17 = some r ∧
      8 ∣ r ∧ 17 ≤ r ∧ r < 17 + 8 ∧
      (∀ m : Nat, 8 ∣ m → 17 ≤ m → r ≤ m) ∧
      (8 ∣ 17 → r = 17) ∧
      (r + 8 - 1 < 18446744073709551616 → calc_global_range 8 r = some r) :=
  calc_global_range_least 8 17 (by decide) (by decide)

/-! ## C13 -/

/-- C13, on the code: `diff_gates(iter)` takes its storage from `gates()`.  With all four
scratch buffers granted it hands back a view of the gates buffer (buffer 1), not of the
diff-gates buffer (buffer 2) that `diff_gates()` returns; without a diff-gates buffer it
still hands back that view instead of an empty result; and without a gates buffer it
fails the assertion of `gates()`, or hands back an empty result when assertions are
compiled out, although the diff-gates buffer is present. -/
theorem diff_gates_views_gates_buffer :
    scratch_t.ctor conf_small grantor_sample = scratch_small ∧
    scratch_small.diff_gates_ptr = some { buffer := 2, offset := 0 } ∧
    scratch_small.calc_off_diff_gates 1 = some 15 ∧
    scratch_small.diff_gates false 1 =
      some (sub_storage.clone_ptr_off { buffer := 1, offset := 0 } (15 * 4)) ∧
    scratch_small.diff_gates true 1 =
      some (sub_storage.clone_ptr_off { buffer := 1, offset := 0 } (15 * 4)) ∧
    (scratch_t.ctor conf_small grantor_fwd).diff_gates_ptr = none ∧
    (scratch_t.ctor conf_small grantor_fwd).diff_gates false 1 =
      some (sub_storage.clone_ptr_off { buffer := 1, offset := 0 } (15 * 4)) ∧
    (scratch_t.ctor conf_small grantor_no_gates).diff_gates_ptr =
      some { buffer := 2, offset := 0 } ∧
    (scratch_t.ctor conf_small grantor_no_gates).diff_gates false 1 = none ∧
    (scratch_t.ctor conf_small grantor_no_gates).diff_gates true 1 =
      some sub_storage.empty :=
  ⟨by rfl, by decide, by decide, by decide, by decide, by decide, by decide, by decide,
    by decide, by decide⟩

/-! ## C14 -/

/-- C14: for every memory descriptor with `ndims <= 5` and a densely packed row-major
layout (whatever its padded dims), `get_outer_strides` leaves `ret[d] = strides[d]` for
every `d < ndims`, dimensions of size 1 included, and `ret[d] = 0` for
`ndims <= d <= 4`; started from another array `ret'` it leaves the same five entries, so
they do not depend on the previous contents; the entries from index 5 on are not
written. -/
theorem get_outer_strides_dense (md : memory_desc_wrapper) (ret ret' : dims_t)
    (hn : md.ndims ≤ 5) (hfit : ∀ i : Fin 12, fitsInt64 (md.strides i))
    (hd : dense_row_major md) :
    ∃ r r' : dims_t, get_outer_strides md ret = some r ∧ get_outer_strides md ret' = some r' ∧
      (∀ i : Fin 12, i.val < 5 →
        r i = (if (i.val : Int) < md.ndims then md.strides i else 0) ∧ r' i = r i) ∧
      (∀ i : Fin 12, 5 ≤ i.val → r i = ret i) := by
  obtain ⟨r, hr, hin, hout⟩ := get_outer_strides_iter_dense md ret hn hfit hd 5 le_rfl
  obtain ⟨r', hr', hin', -⟩ := get_outer_strides_iter_dense md ret' hn hfit hd 5 le_rfl
  refine ⟨r, r', hr, hr', fun i hi => ⟨hin i (by omega) hi, ?_⟩, fun i hi => hout i (Or.inr hi)⟩
  rw [hin i (by omega) hi, hin' i (by omega) hi]

/-- C14 at the dense `2 x 1 x 3` descriptor `md_sample`, started from `ret_sample` and
from `ret_zero`. -/
theorem get_outer_strides_dense_witness :
    ∃ r r' : dims_t, get_outer_strides md_sample ret_sample = some r ∧
      get_outer_strides md_sample ret_zero = some r' ∧
      (∀ i : Fin 12, i.val < 5 →
        r i = (if (i.val : Int) < md_sample.ndims then md_sample.strides i else 0) ∧
        r' i = r i) ∧
      (∀ i : Fin 12, 5 ≤ i.val → r i = ret_sample i) :=
  get_outer_strides_dense md_sample ret_sample ret_zero (by decide) (by decide) (by decide)

end dnnl.rnn_utils
